import Mathlib

/-!
# Verification of the MaxScale monitor core (`server/core/monitor.cc`)

A shallow embedding of the monitor subsystem of `server/core/monitor.cc`:
the journal encoder/decoder (`store_data`, `load_server_journal`,
`process_data_file`, `check_crc32`), the event classifier
(`MonitorServer::get_event_type`, `MonitorServer::status_changed`), the
simple-worker tick loop (`MonitorWorkerSimple::tick`), the disk-space
check (`MonitorServer::update_disk_space_status`), the permissions check
(`Monitor::test_permissions`), the hash-gated journal write
(`Monitor::store_server_journal`) and the server-ownership table
(`ThisUnit::claim_server`, `Monitor::add_server`).

Machine integers are modelled as `Nat` with explicit `% 2 ^ w` where
overflow matters.  Byte buffers are `List Nat` with every element below
256.
-/

namespace MaxScaleVerify

/-! ## Server status bits

Modelled from the spec: the 64-bit status bitmap of §3 is the union of
distinct single bits `RUNNING`, `MAINT`, `DRAINING`, `MASTER`, `SLAVE`,
`JOINED`, `AUTH_ERROR`, `DISK_SPACE_EXHAUSTED`, `WAS_MASTER`.  The bit
constants live in `include/maxscale/server.hh`, outside the given
sources; only their distinctness is used. -/

def SERVER_RUNNING : Nat := 1
def SERVER_MAINT : Nat := 2
def SERVER_MASTER : Nat := 4
def SERVER_SLAVE : Nat := 8
def SERVER_JOINED : Nat := 16
def SERVER_DRAINING : Nat := 32
def SERVER_AUTH_ERROR : Nat := 64
def SERVER_DISK_SPACE_EXHAUSTED : Nat := 128
def SERVER_WAS_MASTER : Nat := 256

/-- `server_type_bits` of `monitor.cc` line 171. -/
def server_type_bits : Nat := SERVER_MASTER ||| SERVER_SLAVE ||| SERVER_JOINED

/-- `all_server_bits` of `monitor.cc` lines 174-175. -/
def all_server_bits : Nat :=
  SERVER_RUNNING ||| SERVER_MAINT ||| SERVER_MASTER ||| SERVER_SLAVE ||| SERVER_JOINED

/-- All 64 bits set: the `uint64_t` value of `-1`, the sentinel of
`mon_prev_status`. -/
def STATUS_SENTINEL : Nat := 2 ^ 64 - 1

/-! ## CRC-32

`monitor.cc` calls zlib's `crc32`, which implements the standard
reflected CRC-32 (polynomial `0xEDB88320`, initial and final complement
`0xFFFFFFFF`).  zlib is outside the given sources; the model below is
the standard bit-at-a-time formulation of that algorithm. -/

/-- One bit step of the reflected CRC-32: shift right, conditionally
xor the reversed polynomial when the low bit is set. -/
def crcBitStep (c : Nat) : Nat :=
  (c >>> 1) ^^^ (if c &&& 1 = 1 then 0xEDB88320 else 0)

/-- `n` iterated bit steps. -/
def crcBitStepN : Nat → Nat → Nat
  | 0, c => c
  | n + 1, c => crcBitStepN n (crcBitStep c)

/-- One byte update of the running CRC state: xor the byte into the low
bits and run eight bit steps. -/
def crcByteStep (c b : Nat) : Nat := crcBitStepN 8 (c ^^^ b)

/-- The running CRC state after feeding `l` starting from state `c`. -/
def crcRun (c : Nat) (l : List Nat) : Nat := l.foldl crcByteStep c

/-- zlib's `crc32(crc32(0L, NULL, 0), data, size)`: complement, feed
the bytes, complement again. -/
def crc32_zlib (l : List Nat) : Nat := crcRun 0xFFFFFFFF l ^^^ 0xFFFFFFFF

/-! ### Linearity of the CRC state over XOR -/

theorem Nat.shiftRight_one_xor (x y : Nat) :
    (x ^^^ y) >>> 1 = (x >>> 1) ^^^ (y >>> 1) := by
  apply Nat.eq_of_testBit_eq
  intro i
  simp [Nat.testBit_shiftRight, Nat.testBit_xor]

theorem Nat.xor_mod_two (x y : Nat) :
    (x ^^^ y) % 2 = (x % 2) ^^^ (y % 2) := by
  have hx := Nat.mod_two_eq_zero_or_one x
  have hy := Nat.mod_two_eq_zero_or_one y
  have h := Nat.testBit_xor x y 0
  simp only [Nat.testBit_zero] at h
  rcases hx with hx | hx <;> rcases hy with hy | hy <;>
    simp [hx, hy] at h ⊢ <;> omega

theorem xor_xor_right_comm (a b p : Nat) : (a ^^^ b) ^^^ p = (a ^^^ p) ^^^ b := by
  rw [Nat.xor_assoc, Nat.xor_comm b p, ← Nat.xor_assoc]

theorem crcBitStep_xor (x y : Nat) :
    crcBitStep (x ^^^ y) = crcBitStep x ^^^ crcBitStep y := by
  have hP0 : ∀ r : Nat, r = 0 → (if r = 1 then (0xEDB88320 : Nat) else 0) = 0 := by
    intro r hr
    rw [hr]
    norm_num
  have hP1 : ∀ r : Nat, r = 1 → (if r = 1 then (0xEDB88320 : Nat) else 0) = 0xEDB88320 := by
    intro r hr
    rw [hr]
    norm_num
  unfold crcBitStep
  rw [Nat.shiftRight_one_xor]
  simp only [Nat.and_one_is_mod]
  have h := Nat.xor_mod_two x y
  rcases Nat.mod_two_eq_zero_or_one x with hx | hx <;>
    rcases Nat.mod_two_eq_zero_or_one y with hy | hy <;>
    rw [hx, hy] at h <;> simp only [Nat.xor_zero, Nat.zero_xor, Nat.xor_self] at h
  · rw [hP0 _ h, hP0 _ hx, hP0 _ hy, Nat.xor_zero, Nat.xor_zero, Nat.xor_zero]
  · rw [hP1 _ h, hP0 _ hx, hP1 _ hy, Nat.xor_zero]
    exact Nat.xor_assoc _ _ _
  · rw [hP1 _ h, hP1 _ hx, hP0 _ hy, Nat.xor_zero]
    exact xor_xor_right_comm _ _ _
  · rw [hP0 _ h, hP1 _ hx, hP1 _ hy, Nat.xor_zero, Nat.xor_assoc, Nat.xor_comm (y >>> 1),
      ← Nat.xor_assoc 0xEDB88320, Nat.xor_self, Nat.zero_xor]

theorem crcBitStepN_xor (n x y : Nat) :
    crcBitStepN n (x ^^^ y) = crcBitStepN n x ^^^ crcBitStepN n y := by
  induction n generalizing x y with
  | zero => rfl
  | succ n ih => simp only [crcBitStepN, crcBitStep_xor, ih]

theorem crcBitStepN_add (m n x : Nat) :
    crcBitStepN m (crcBitStepN n x) = crcBitStepN (n + m) x := by
  induction n generalizing x with
  | zero => rw [Nat.zero_add]; rfl
  | succ n ih =>
    rw [Nat.succ_add]
    exact ih (crcBitStep x)

/-! ### The bit step has trivial kernel on 32-bit states -/

theorem crcBitStep_lt (c : Nat) (hc : c < 2 ^ 32) : crcBitStep c < 2 ^ 32 := by
  unfold crcBitStep
  apply Nat.xor_lt_two_pow
  · calc c >>> 1 = c / 2 ^ 1 := Nat.shiftRight_eq_div_pow c 1
      _ ≤ c := Nat.div_le_self c 2
      _ < 2 ^ 32 := hc
  · split <;> norm_num

theorem crcBitStep_ne_zero (c : Nat) (hc : c < 2 ^ 32) (h0 : c ≠ 0) :
    crcBitStep c ≠ 0 := by
  unfold crcBitStep
  rcases Nat.mod_two_eq_zero_or_one c with he | ho
  · rw [Nat.and_one_is_mod, he, if_neg (by norm_num), Nat.xor_zero]
    intro h
    apply h0
    have h1 : c / 2 = 0 := by simpa [Nat.shiftRight_succ, Nat.shiftRight_zero] using h
    omega
  · rw [Nat.and_one_is_mod, ho, if_pos rfl]
    intro h
    have heq : c >>> 1 = 0xEDB88320 := by
      have := congrArg (fun z => z ^^^ 0xEDB88320) h
      simpa [Nat.xor_assoc] using this
    have hlt : c >>> 1 < 2 ^ 31 := by
      have : c >>> 1 = c / 2 := by simp [Nat.shiftRight_succ, Nat.shiftRight_zero]
      omega
    rw [heq] at hlt
    norm_num at hlt

theorem crcBitStepN_lt (n c : Nat) (hc : c < 2 ^ 32) : crcBitStepN n c < 2 ^ 32 := by
  induction n generalizing c with
  | zero => exact hc
  | succ n ih => exact ih _ (crcBitStep_lt c hc)

theorem crcBitStepN_ne_zero (n c : Nat) (hc : c < 2 ^ 32) (h0 : c ≠ 0) :
    crcBitStepN n c ≠ 0 := by
  induction n generalizing c with
  | zero => exact h0
  | succ n ih => exact ih _ (crcBitStep_lt c hc) (crcBitStep_ne_zero c hc h0)

/-! ### A single changed byte changes the CRC -/

theorem crcByteStep_xor_state (c d b : Nat) :
    crcByteStep (c ^^^ d) b = crcByteStep c b ^^^ crcBitStepN 8 d := by
  unfold crcByteStep
  rw [Nat.xor_comm c d, Nat.xor_assoc, Nat.xor_comm d, crcBitStepN_xor]

theorem crcRun_xor_state (l : List Nat) (c d : Nat) :
    crcRun (c ^^^ d) l = crcRun c l ^^^ crcBitStepN (8 * l.length) d := by
  induction l generalizing c d with
  | nil => simp [crcRun, crcBitStepN]
  | cons x l ih =>
    simp only [crcRun, List.foldl_cons, List.length_cons] at *
    rw [crcByteStep_xor_state, ih]
    rw [crcBitStepN_add]
    ring_nf

theorem Nat.xor_ne_zero_of_ne {a b : Nat} (h : a ≠ b) : a ^^^ b ≠ 0 := by
  intro hz
  apply h
  have := congrArg (fun z => z ^^^ b) hz
  simpa [Nat.xor_assoc] using this

theorem Nat.ne_of_xor_ne_zero {a d : Nat} (h : d ≠ 0) : a ^^^ d ≠ a := by
  intro he
  apply h
  have := congrArg (fun z => a ^^^ z) he
  simpa [← Nat.xor_assoc] using this

/-- Feeding two byte lists that agree except at one position, where the
bytes differ, from the same 32-bit state leads to different states. -/
theorem crcRun_set_ne (l : List Nat) (hl : ∀ b ∈ l, b < 256) (c : Nat)
    (hc : c < 2 ^ 32) (i : Nat) (hi : i < l.length) (b : Nat) (hb : b < 256)
    (hne : b ≠ l.get ⟨i, hi⟩) :
    crcRun c (l.set i b) ≠ crcRun c l := by
  induction l generalizing i c with
  | nil => simp at hi
  | cons x l ih =>
    cases i with
    | zero =>
      simp only [List.set_cons_zero, List.get] at hne ⊢
      simp only [crcRun, List.foldl_cons]
      have hbx : crcByteStep c b = crcByteStep c x ^^^ crcBitStepN 8 (x ^^^ b) := by
        have : c ^^^ b = (c ^^^ x) ^^^ (x ^^^ b) := by
          rw [Nat.xor_assoc, ← Nat.xor_assoc x x b, Nat.xor_self, Nat.zero_xor]
        unfold crcByteStep
        rw [this, crcBitStepN_xor]
      rw [hbx]
      show crcRun (crcByteStep c x ^^^ crcBitStepN 8 (x ^^^ b)) l ≠ crcRun (crcByteStep c x) l
      rw [crcRun_xor_state]
      apply Nat.ne_of_xor_ne_zero
      apply crcBitStepN_ne_zero
      · apply crcBitStepN_lt
        apply Nat.xor_lt_two_pow
        · calc x < 256 := hl x (by simp)
            _ < 2 ^ 32 := by norm_num
        · calc b < 256 := hb
            _ < 2 ^ 32 := by norm_num
      · apply crcBitStepN_ne_zero
        · apply Nat.xor_lt_two_pow
          · calc x < 256 := hl x (by simp)
              _ < 2 ^ 32 := by norm_num
          · calc b < 256 := hb
              _ < 2 ^ 32 := by norm_num
        · exact Nat.xor_ne_zero_of_ne (fun h => hne h.symm)
    | succ n =>
      simp only [List.set_cons_succ] at *
      simp only [crcRun, List.foldl_cons]
      apply ih (fun y hy => hl y (by simp [hy])) _ _ n (by simpa using hi) hne
      unfold crcByteStep
      apply crcBitStepN_lt
      apply Nat.xor_lt_two_pow hc
      calc x < 256 := hl x (by simp)
        _ < 2 ^ 32 := by norm_num

theorem crcRun_lt (l : List Nat) (hl : ∀ b ∈ l, b < 256) (c : Nat)
    (hc : c < 2 ^ 32) : crcRun c l < 2 ^ 32 := by
  induction l generalizing c with
  | nil => exact hc
  | cons x l ih =>
    simp only [crcRun, List.foldl_cons]
    apply ih (fun y hy => hl y (by simp [hy]))
    unfold crcByteStep
    apply crcBitStepN_lt
    apply Nat.xor_lt_two_pow hc
    calc x < 256 := hl x (by simp)
      _ < 2 ^ 32 := by norm_num

/-- The CRC-32 of a byte list is a 32-bit value. -/
theorem crc32_zlib_lt (l : List Nat) (hl : ∀ b ∈ l, b < 256) :
    crc32_zlib l < 2 ^ 32 := by
  unfold crc32_zlib
  apply Nat.xor_lt_two_pow (crcRun_lt l hl _ (by norm_num)) (by norm_num)

/-- CRC-32 detects every single changed byte. -/
theorem crc32_zlib_set_ne (l : List Nat) (hl : ∀ b ∈ l, b < 256) (i : Nat)
    (hi : i < l.length) (b : Nat) (hb : b < 256) (hne : b ≠ l.get ⟨i, hi⟩) :
    crc32_zlib (l.set i b) ≠ crc32_zlib l := by
  unfold crc32_zlib
  intro h
  apply crcRun_set_ne l hl 0xFFFFFFFF (by norm_num) i hi b hb hne
  have := congrArg (fun z => z ^^^ 0xFFFFFFFF) h
  simpa [Nat.xor_assoc] using this

/-! ## Little-endian byte helpers

Modelled from the spec: `mxs_set_byte4` / `maxscale::set_byteN` /
`mxs_get_byte4` / `maxscale::get_byteN` live in `maxscale/utils.hh`,
outside the given sources.  Per §3 the journal layout is
`length (u32 LE) ‖ schema-version (u8) ‖ payload ‖ crc32 (u32 LE)` with
`status (u64 LE)`, so the helpers are little-endian. -/

/-- Store `v` over `n` bytes, least significant byte first. -/
def set_byteN : Nat → Nat → List Nat
  | _, 0 => []
  | v, n + 1 => v % 256 :: set_byteN (v / 256) n

/-- Read `n` little-endian bytes.  A read past the end of the supplied
buffer (possible only on the decoder's overrun path) yields unspecified
data, modelled as zeros. -/
def get_byteN : List Nat → Nat → Nat
  | _, 0 => 0
  | [], _ + 1 => 0
  | b :: rest, n + 1 => b + 256 * get_byteN rest n

theorem length_set_byteN (v n : Nat) : (set_byteN v n).length = n := by
  induction n generalizing v with
  | zero => rfl
  | succ n ih => simp [set_byteN, ih]

theorem set_byteN_lt (v n : Nat) : ∀ b ∈ set_byteN v n, b < 256 := by
  induction n generalizing v with
  | zero => simp [set_byteN]
  | succ n ih =>
    intro b hb
    simp only [set_byteN, List.mem_cons] at hb
    rcases hb with hb | hb
    · omega
    · exact ih _ b hb

theorem get_set_byteN (v n : Nat) (tail : List Nat) :
    get_byteN (set_byteN v n ++ tail) n = v % 256 ^ n := by
  induction n generalizing v with
  | zero => simp [set_byteN, get_byteN, Nat.mod_one]
  | succ n ih =>
    simp only [set_byteN, List.cons_append, get_byteN]
    rw [show (set_byteN (v / 256) n).append tail = set_byteN (v / 256) n ++ tail from rfl, ih,
      pow_succ, Nat.mul_comm (256 ^ n) 256, Nat.mod_mul]

/-! ## The journal record -/

/-- The five admin status-request values of `MonitorServer`
(`monitor.hh`, used at `monitor.cc` 1383-1408). -/
inductive StatusRequest
  | NO_CHANGE
  | MAINT_ON
  | MAINT_OFF
  | BEING_DRAINED_ON
  | BEING_DRAINED_OFF
  deriving DecidableEq, Repr

/-- The fields of `MonitorServer` (plus its server's name and live
status bitmap) that the verified code paths touch. -/
structure MonSrv where
  name : List Nat
  status : Nat
  mon_prev_status : Nat
  pending_status : Nat
  status_request : StatusRequest
  deriving DecidableEq, Repr

/-- Modelled from the spec: §4.1 `SERVER::set_status(bits)` (outside the
given sources) sets the given bits of the 64-bit bitmap. -/
def SERVER_set_status (status bits : Nat) : Nat := status ||| bits

/-- Modelled from the spec: §4.1 `SERVER::clear_status(bits)` clears the
given bits (`status &= ~bits` on `uint64_t`). -/
def SERVER_clear_status (status bits : Nat) : Nat :=
  status &&& (STATUS_SENTINEL ^^^ (bits &&& STATUS_SENTINEL))

/-- One `SVT_SERVER` entry as written by `store_data`: type byte `1`,
NUL-terminated server name, eight status bytes. -/
def encode_server_entry (name : List Nat) (status : Nat) : List Nat :=
  1 :: (name ++ 0 :: set_byteN status 8)

/-- One `SVT_MASTER` entry: type byte `2` and the NUL-terminated master
name. -/
def encode_master_entry (name : List Nat) : List Nat :=
  2 :: (name ++ [0])

/-- The size computation of `store_server_journal` (`monitor.cc`
1497-1510): schema-version and CRC-32 lengths plus, per server, a type
byte, the NUL-terminated name and eight status bytes, plus the optional
master entry. -/
def journal_size (servers : List (List Nat × Nat)) (master : Option (List Nat)) : Nat :=
  (1 + 4) + (servers.map (fun sv => 1 + (sv.1.length + 1) + 8)).sum +
    (match master with
     | some m => 1 + (m.length + 1)
     | none => 0)

/-- The entry block written by `store_data`: all server entries in
server-list order followed by the optional master entry. -/
def journal_entries (servers : List (List Nat × Nat)) (master : Option (List Nat)) : List Nat :=
  (servers.map (fun sv => encode_server_entry sv.1 sv.2)).flatten ++
    (match master with
     | some m => encode_master_entry m
     | none => [])

/-- `store_data` (`monitor.cc` 252-293): length prefix, schema version
`2`, the per-server entries in server-list order, the optional master
entry, then the CRC-32 over everything between length prefix and CRC
field. -/
def store_data (servers : List (List Nat × Nat)) (master : Option (List Nat)) : List Nat :=
  set_byteN (journal_size servers master) 4 ++ (2 :: journal_entries servers master) ++
    set_byteN (crc32_zlib (2 :: journal_entries servers master)) 4

/-- `has_null_terminator` (`monitor.cc` 298-310): scan the byte range
for a NUL. -/
def has_null_terminator (l : List Nat) : Bool := l.any (fun b => b == 0)

/-- The state update of `process_server` (`monitor.cc` 315-336): the
first monitored server whose name matches receives the stored status:
`mon_prev_status` by assignment, the live status via `set_status`, the
pending status via `set_pending_status` (`pending_status |= bits`,
line 785-788). -/
def apply_server_entry (name : List Nat) (status : Nat) : List MonSrv → List MonSrv
  | [] => []
  | db :: rest =>
    if db.name = name then
      { db with mon_prev_status := status,
                status := SERVER_set_status db.status status,
                pending_status := db.pending_status ||| status } :: rest
    else
      db :: apply_server_entry name status rest

/-- `process_data_file` (`monitor.cc` 375-413) with `process_server`
(315-336) and `process_master` (341-359) inlined, in release semantics
(`mxb_assert` is a no-op).  The first list is the byte range
`[data, crc_ptr)`; `beyond` holds the bytes following `crc_ptr` (the
CRC field), which an overrunning eight-byte status read can reach. -/
def process_data_file : List Nat → List Nat → List MonSrv → Option Nat →
    Bool × List MonSrv × Option Nat
  | [], _, st, master => (true, st, master)
  | t :: rest, beyond, st, master =>
    if has_null_terminator (t :: rest) = false then (false, st, master)
    else if t = 1 then
      process_data_file
        (rest.drop ((rest.takeWhile (fun b => b != 0)).length + 1 + 8)) beyond
        (apply_server_entry (rest.takeWhile (fun b => b != 0))
          (get_byteN (rest.drop ((rest.takeWhile (fun b => b != 0)).length + 1) ++ beyond) 8)
          st)
        master
    else if t = 2 then
      process_data_file (rest.drop ((rest.takeWhile (fun b => b != 0)).length + 1)) beyond st
        (match st.findIdx? (fun db => db.name == rest.takeWhile (fun b => b != 0)) with
         | some i => some i
         | none => master)
    else (false, st, master)
termination_by p _ _ _ => p.length
decreasing_by
  all_goals simp only [List.length_drop, List.length_cons]; omega

/-- `check_crc32` (`monitor.cc` 364-370): compare the CRC-32 of the
covered bytes with the four little-endian bytes at `crc_ptr`. -/
def check_crc32 (data : List Nat) (crc_ptr : List Nat) : Bool :=
  crc32_zlib data == get_byteN crc_ptr 4

/-- `load_server_journal` (`monitor.cc` 1558-1641) applied to the bytes
of `monitor.dat`: read the four-byte length, read that many payload
bytes, check schema version and CRC-32, then decode the entries.
Returns whether a successful load happened (the `MXS_NOTICE` path)
together with the updated server list and noted master. -/
def load_server_journal (fileBytes : List Nat) (st : List MonSrv) :
    Bool × List MonSrv × Option Nat :=
  if fileBytes.length < 4 then (false, st, none)
  else if ((fileBytes.drop 4).take (get_byteN fileBytes 4)).length ≠ get_byteN fileBytes 4 then
    (false, st, none)
  else
    match (fileBytes.drop 4).take (get_byteN fileBytes 4) with
    | [] => (false, st, none)
    | v :: tail =>
      if v ≠ 2 then (false, st, none)
      else if check_crc32 ((v :: tail).take (get_byteN fileBytes 4 - 4))
          ((v :: tail).drop (get_byteN fileBytes 4 - 4)) = false then (false, st, none)
      else
        process_data_file (tail.take (get_byteN fileBytes 4 - 4 - 1))
          ((v :: tail).drop (get_byteN fileBytes 4 - 4)) st none

/-! ## Decoding lemmas for the journal round trip -/

theorem takeWhile_name (name : List Nat) (tail : List Nat) (h0 : ¬ 0 ∈ name) :
    (name ++ 0 :: tail).takeWhile (fun b => b != 0) = name := by
  induction name with
  | nil => simp
  | cons x xs ih =>
    simp only [List.mem_cons, not_or] at h0
    have hx : x ≠ 0 := fun h => h0.1 h.symm
    simp [List.takeWhile_cons, hx, ih h0.2]

theorem drop_name_cons (name : List Nat) (x : Nat) (tail : List Nat) :
    (name ++ x :: tail).drop (name.length + 1) = tail := by
  have h : name ++ x :: tail = (name ++ [x]) ++ tail := by simp
  rw [h, show name.length + 1 = (name ++ [x]).length by simp, List.drop_left]

theorem drop_entry (name sb rest : List Nat) (h8 : sb.length = 8) :
    (name ++ 0 :: (sb ++ rest)).drop (name.length + 1 + 8) = rest := by
  have h : name ++ 0 :: (sb ++ rest) = (name ++ 0 :: sb) ++ rest := by simp
  rw [h, show name.length + 1 + 8 = (name ++ 0 :: sb).length by simp [h8], List.drop_left]

theorem has_null_mid (t : Nat) (name tail : List Nat) :
    has_null_terminator (t :: (name ++ 0 :: tail)) = true := by
  simp [has_null_terminator]

/-- Decoding one `SVT_SERVER` entry consumes exactly the entry and
applies it to the server list. -/
theorem process_server_entry_step (name : List Nat) (h0 : ¬ 0 ∈ name) (status : Nat)
    (hs : status < 2 ^ 64) (rest beyond : List Nat) (st : List MonSrv) (master : Option Nat) :
    process_data_file (encode_server_entry name status ++ rest) beyond st master =
      process_data_file rest beyond (apply_server_entry name status st) master := by
  have hassoc : encode_server_entry name status ++ rest =
      1 :: (name ++ 0 :: (set_byteN status 8 ++ rest)) := by
    simp [encode_server_entry]
  rw [hassoc, process_data_file, has_null_mid]
  rw [takeWhile_name name _ h0, drop_name_cons, drop_entry name _ rest (length_set_byteN _ _)]
  rw [List.append_assoc, get_set_byteN]
  have hmod : status % 256 ^ 8 = status := Nat.mod_eq_of_lt (by norm_num; omega)
  rw [hmod]
  norm_num

/-- Decoding one `SVT_MASTER` entry notes the first monitored server
with the stored name (or leaves the master unchanged when none
matches). -/
theorem process_master_entry_step (name : List Nat) (h0 : ¬ 0 ∈ name)
    (beyond : List Nat) (st : List MonSrv) (master : Option Nat) :
    process_data_file (encode_master_entry name) beyond st master =
      (true, st,
        match st.findIdx? (fun db => db.name == name) with
        | some i => some i
        | none => master) := by
  have hassoc : encode_master_entry name = 2 :: (name ++ 0 :: ([] : List Nat)) := by
    simp [encode_master_entry]
  rw [hassoc, process_data_file, has_null_mid]
  rw [takeWhile_name name _ h0, drop_name_cons]
  norm_num [process_data_file]

/-- A freshly created `MonitorServer` (`monitor.hh` defaults): zero
live status, `mon_prev_status` at the sentinel `-1`, empty pending
status, no pending admin request. -/
def cold_server (sv : List Nat × Nat) : MonSrv :=
  ⟨sv.1, 0, STATUS_SENTINEL, 0, StatusRequest.NO_CHANGE⟩

/-- A monitored server after its journal entry was applied: previous,
live and pending status all equal the stored status. -/
def loaded_server (sv : List Nat × Nat) : MonSrv :=
  ⟨sv.1, sv.2, sv.2, sv.2, StatusRequest.NO_CHANGE⟩

theorem apply_server_entry_append (name : List Nat) (status : Nat) (pre l : List MonSrv)
    (hp : ∀ p ∈ pre, p.name ≠ name) :
    apply_server_entry name status (pre ++ l) = pre ++ apply_server_entry name status l := by
  induction pre with
  | nil => rfl
  | cons p ps ih =>
    simp only [List.cons_append, apply_server_entry, if_neg (hp p (by simp))]
    rw [show (ps.append l) = ps ++ l from rfl]
    rw [ih (fun q hq => hp q (by simp [hq]))]

/-- Decoding the block of `SVT_SERVER` entries encoded from `svs`
updates exactly those servers, in order. -/
theorem decode_server_entries (svs : List (List Nat × Nat)) (pre : List MonSrv)
    (tail beyond : List Nat) (master : Option Nat)
    (h0 : ∀ sv ∈ svs, ¬ 0 ∈ sv.1) (hs : ∀ sv ∈ svs, sv.2 < 2 ^ 64)
    (hnodup : (svs.map Prod.fst).Nodup)
    (hpre : ∀ sv ∈ svs, ∀ p ∈ pre, p.name ≠ sv.1) :
    process_data_file ((svs.map (fun sv => encode_server_entry sv.1 sv.2)).flatten ++ tail)
        beyond (pre ++ svs.map cold_server) master =
      process_data_file tail beyond (pre ++ svs.map loaded_server) master := by
  induction svs generalizing pre with
  | nil => simp
  | cons sv svs ih =>
    simp only [List.map_cons, List.flatten_cons, List.append_assoc]
    rw [process_server_entry_step sv.1 (h0 sv (by simp)) sv.2 (hs sv (by simp))]
    have happ : apply_server_entry sv.1 sv.2 (pre ++ (sv :: svs).map cold_server) =
        pre ++ loaded_server sv :: svs.map cold_server := by
      rw [apply_server_entry_append _ _ _ _ (fun p hp => hpre sv (by simp) p hp)]
      congr 1
      simp only [List.map_cons, apply_server_entry, cold_server, if_pos rfl]
      simp [loaded_server, SERVER_set_status]
    simp only [List.map_cons] at happ ⊢
    rw [happ]
    have hsh : pre ++ loaded_server sv :: svs.map cold_server =
        (pre ++ [loaded_server sv]) ++ svs.map cold_server := by simp
    rw [hsh]
    simp only [List.nodup_cons, List.map_cons] at hnodup
    have hpre2 : ∀ q ∈ svs, ∀ p ∈ pre ++ [loaded_server sv], p.name ≠ q.1 := by
      intro q hq p hp
      rcases List.mem_append.1 hp with hp | hp
      · exact hpre q (List.mem_cons_of_mem _ hq) p hp
      · have hpl : p = loaded_server sv := by simpa using hp
        rw [hpl]
        show sv.1 ≠ q.1
        intro hcontra
        apply hnodup.1
        rw [hcontra]
        exact List.mem_map_of_mem Prod.fst hq
    rw [ih (pre ++ [loaded_server sv]) (fun q hq => h0 q (List.mem_cons_of_mem _ hq))
      (fun q hq => hs q (List.mem_cons_of_mem _ hq)) hnodup.2 hpre2]
    simp

/-- `findIdx?` over the loaded server list finds the encoded master. -/
theorem findIdx_loaded (svs : List (List Nat × Nat)) (m : Nat) (hm : m < svs.length)
    (hnodup : (svs.map Prod.fst).Nodup) :
    (svs.map loaded_server).findIdx? (fun db => db.name == (svs.get ⟨m, hm⟩).1) = some m := by
  induction svs generalizing m with
  | nil => simp at hm
  | cons sv svs ih =>
    simp only [List.nodup_cons, List.map_cons] at hnodup
    cases m with
    | zero =>
      simp [List.findIdx?_cons, loaded_server, List.get]
    | succ m =>
      have hmem : (svs.get ⟨m, by simpa using hm⟩).1 ∈ svs.map Prod.fst :=
        List.mem_map_of_mem Prod.fst (List.get_mem svs m _)
      have hne : ¬ (sv.1 = ((sv :: svs).get ⟨m + 1, hm⟩).1) := by
        intro hcontra
        apply hnodup.1
        rw [hcontra]
        exact hmem
      simp only [List.map_cons, List.findIdx?_cons]
      rw [if_neg (by simpa [loaded_server] using hne)]
      rw [List.findIdx?_succ]
      have := ih m (by simpa using hm) hnodup.2
      rw [show ((sv :: svs).get ⟨m + 1, hm⟩) = svs.get ⟨m, by simpa using hm⟩ from rfl, this]
      rfl


theorem length_encode_server_entry (name : List Nat) (status : Nat) :
    (encode_server_entry name status).length = name.length + 10 := by
  simp [encode_server_entry, length_set_byteN]

theorem length_journal_entries (servers : List (List Nat × Nat))
    (master : Option (List Nat)) :
    (journal_entries servers master).length + 5 = journal_size servers master := by
  unfold journal_entries journal_size
  rw [List.length_append, List.length_flatten, List.map_map]
  have h1 : (servers.map (List.length ∘ fun sv => encode_server_entry sv.1 sv.2)).sum =
      (servers.map (fun sv => 1 + (sv.1.length + 1) + 8)).sum := by
    congr 1
    apply List.map_congr_left
    intro sv _
    simp only [Function.comp_apply, length_encode_server_entry]
    omega
  rw [h1]
  cases master with
  | none =>
    simp
    omega
  | some m =>
    simp [encode_master_entry]
    omega

theorem journal_entries_lt (servers : List (List Nat × Nat)) (master : Option (List Nat))
    (hname256 : ∀ sv ∈ servers, ∀ b ∈ sv.1, b < 256)
    (hmaster : ∀ m, master = some m → ∀ b ∈ m, b < 256) :
    ∀ b ∈ journal_entries servers master, b < 256 := by
  intro b hb
  unfold journal_entries at hb
  rcases List.mem_append.1 hb with hb | hb
  · rcases List.mem_flatten.1 hb with ⟨entry, hentry, hbe⟩
    rcases List.mem_map.1 hentry with ⟨sv, hsv, hev⟩
    rw [← hev] at hbe
    simp only [encode_server_entry, List.mem_cons, List.mem_append] at hbe
    rcases hbe with hbe | hbe | hbe
    · omega
    · exact hname256 sv hsv b hbe
    · rcases hbe with hbe | hbe
      · omega
      · exact set_byteN_lt _ _ b hbe
  · cases hmv : master with
    | none => rw [hmv] at hb; simp at hb
    | some m =>
      rw [hmv] at hb
      simp only [encode_master_entry, List.mem_cons, List.mem_append,
        List.mem_singleton] at hb
      rcases hb with hb | hb | hb
      · omega
      · exact hmaster m hmv b hb
      · have hb0 : b = 0 := by simpa using hb
        omega

theorem get_byteN_cons (x : Nat) (xs : List Nat) (n : Nat) :
    get_byteN (x :: xs) (n + 1) = x + 256 * get_byteN xs n := rfl

theorem get_byteN_set_ne (l : List Nat) (n k : Nat) (hk : k < l.length) (hkn : k < n)
    (b : Nat) (hne : b ≠ l.get ⟨k, hk⟩) :
    get_byteN (l.set k b) n ≠ get_byteN l n := by
  induction l generalizing k n with
  | nil => simp at hk
  | cons x xs ih =>
    cases k with
    | zero =>
      cases n with
      | zero => omega
      | succ n =>
        show get_byteN (b :: xs) (n + 1) ≠ get_byteN (x :: xs) (n + 1)
        rw [get_byteN_cons, get_byteN_cons]
        have hbx : b ≠ x := by simpa [List.get] using hne
        omega
    | succ k =>
      cases n with
      | zero => omega
      | succ n =>
        show get_byteN (x :: xs.set k b) (n + 1) ≠ get_byteN (x :: xs) (n + 1)
        rw [get_byteN_cons, get_byteN_cons]
        have hin := ih n k (by simpa using hk) (by omega)
          (by simpa [List.get] using hne)
        omega

/-- Unfolding `load_server_journal` on a correctly length-prefixed
record. -/
theorem load_server_journal_eq (v : Nat) (R : List Nat) (st : List MonSrv)
    (hlt : R.length + 1 < 2 ^ 32) :
    load_server_journal (set_byteN (R.length + 1) 4 ++ v :: R) st =
      (if v ≠ 2 then (false, st, none)
       else if check_crc32 ((v :: R).take (R.length - 3))
           ((v :: R).drop (R.length - 3)) = false then (false, st, none)
       else process_data_file (R.take (R.length - 4)) ((v :: R).drop (R.length - 3)) st
         none) := by
  have hdrop : (set_byteN (R.length + 1) 4 ++ v :: R).drop 4 = v :: R := by
    have h := List.drop_left (set_byteN (R.length + 1) 4) (v :: R)
    rwa [length_set_byteN] at h
  have hget : get_byteN (set_byteN (R.length + 1) 4 ++ v :: R) 4 = R.length + 1 := by
    rw [get_set_byteN]
    exact Nat.mod_eq_of_lt (by norm_num; omega)
  have htake : (v :: R).take (R.length + 1) = v :: R := by
    rw [show R.length + 1 = (v :: R).length from rfl, List.take_length]
  unfold load_server_journal
  rw [if_neg (by simp [length_set_byteN]), hdrop, hget, htake,
    if_neg (by simp)]
  have h3 : R.length + 1 - 4 = R.length - 3 := by omega
  have h4 : R.length - 3 - 1 = R.length - 4 := by omega
  rw [h3, h4]

/-- The optional master of a snapshot, identified by index into the
server list (as `m_master` points at one of `m_servers`). -/
def master_name (servers : List (List Nat × Nat)) : Option Nat → Option (List Nat)
  | none => none
  | some m => servers[m]?.map Prod.fst

theorem store_data_shape (servers : List (List Nat × Nat)) (master : Option (List Nat)) :
    store_data servers master =
      set_byteN ((journal_entries servers master ++
          set_byteN (crc32_zlib (2 :: journal_entries servers master)) 4).length + 1) 4 ++
        2 :: (journal_entries servers master ++
          set_byteN (crc32_zlib (2 :: journal_entries servers master)) 4) := by
  unfold store_data
  rw [List.length_append, length_set_byteN]
  rw [show (journal_entries servers master).length + 4 + 1 =
    journal_size servers master by rw [← length_journal_entries servers master]]
  simp

/-- Decoding after the CRC check succeeds on an intact record. -/
theorem load_store_round (servers : List (List Nat × Nat)) (masterIdx : Option Nat)
    (hname0 : ∀ sv ∈ servers, 0 ∉ sv.1)
    (hname256 : ∀ sv ∈ servers, ∀ b ∈ sv.1, b < 256)
    (hnodup : (servers.map Prod.fst).Nodup)
    (hstatus : ∀ sv ∈ servers, sv.2 < 2 ^ 64)
    (hsize : journal_size servers (master_name servers masterIdx) < 2 ^ 32)
    (hm : ∀ m, masterIdx = some m → m < servers.length) :
    load_server_journal (store_data servers (master_name servers masterIdx))
        (servers.map cold_server) =
      (true, servers.map loaded_server, masterIdx) := by
  have hmast256 : ∀ m, master_name servers masterIdx = some m → ∀ b ∈ m, b < 256 := by
    intro m hmv b hb
    cases masterIdx with
    | none => simp [master_name] at hmv
    | some j =>
      simp only [master_name] at hmv
      rcases Option.map_eq_some'.1 hmv with ⟨sv, hsv, hfst⟩
      rw [← hfst] at hb
      exact hname256 sv (List.getElem?_mem hsv) b hb
  have hbytes : ∀ b ∈ 2 :: journal_entries servers (master_name servers masterIdx), b < 256 := by
    intro b hb
    rcases List.mem_cons.1 hb with hb | hb
    · omega
    · exact journal_entries_lt _ _ hname256 hmast256 b hb
  have hcrclt : crc32_zlib (2 :: journal_entries servers (master_name servers masterIdx)) <
      2 ^ 32 := crc32_zlib_lt _ hbytes
  rw [store_data_shape]
  have hRlen : (journal_entries servers (master_name servers masterIdx) ++
      set_byteN (crc32_zlib (2 :: journal_entries servers (master_name servers masterIdx))) 4).length
      = (journal_entries servers (master_name servers masterIdx)).length + 4 := by
    rw [List.length_append, length_set_byteN]
  have hsz : (journal_entries servers (master_name servers masterIdx)).length + 4 + 1 < 2 ^ 32 := by
    have := length_journal_entries servers (master_name servers masterIdx)
    omega
  rw [load_server_journal_eq 2 _ _ (by rw [hRlen]; exact hsz)]
  rw [if_neg (by simp)]
  rw [hRlen]
  have hE3 : (journal_entries servers (master_name servers masterIdx)).length + 4 - 3 =
      (journal_entries servers (master_name servers masterIdx)).length + 1 := by omega
  have hE4 : (journal_entries servers (master_name servers masterIdx)).length + 4 - 4 =
      (journal_entries servers (master_name servers masterIdx)).length := by omega
  rw [hE3, hE4]
  rw [List.take_succ_cons, List.take_left, List.drop_succ_cons, List.drop_left]
  have hcheck : check_crc32
      (2 :: journal_entries servers (master_name servers masterIdx))
      (set_byteN (crc32_zlib (2 :: journal_entries servers (master_name servers masterIdx))) 4) =
      true := by
    unfold check_crc32
    rw [show set_byteN (crc32_zlib (2 :: journal_entries servers (master_name servers masterIdx))) 4
      = set_byteN (crc32_zlib (2 :: journal_entries servers (master_name servers masterIdx))) 4 ++ []
      by simp]
    rw [get_set_byteN]
    rw [Nat.mod_eq_of_lt (by norm_num; omega)]
    simp
  rw [if_neg (by rw [hcheck]; simp)]
  unfold journal_entries
  have hdec := decode_server_entries servers []
    (match master_name servers masterIdx with
     | some m => encode_master_entry m
     | none => [])
    (set_byteN (crc32_zlib (2 :: journal_entries servers (master_name servers masterIdx))) 4)
    none hname0 hstatus hnodup (by intro sv _ p hp; simp at hp)
  unfold journal_entries at hdec
  simp only [List.nil_append] at hdec
  rw [hdec]
  cases hmi : masterIdx with
  | none =>
    simp [master_name, process_data_file]
  | some m =>
    have hmlt : m < servers.length := hm m hmi
    have hgm : servers[m]? = some (servers.get ⟨m, hmlt⟩) := by
      rw [List.getElem?_eq_getElem hmlt]
      simp
  
    simp only [master_name]
    rw [hgm]
    simp only [Option.map_some']
    rw [process_master_entry_step _ (hname0 _ (List.get_mem servers m hmlt))]
    rw [show (servers.map loaded_server).findIdx?
        (fun db => db.name == (servers.get ⟨m, hmlt⟩).1) = some m
      from findIdx_loaded servers m hmlt hnodup]

theorem master_name_lt (servers : List (List Nat × Nat)) (masterIdx : Option Nat)
    (hname256 : ∀ sv ∈ servers, ∀ b ∈ sv.1, b < 256) :
    ∀ m, master_name servers masterIdx = some m → ∀ b ∈ m, b < 256 := by
  intro m hmv b hb
  cases masterIdx with
  | none => simp [master_name] at hmv
  | some j =>
    simp only [master_name] at hmv
    rcases Option.map_eq_some'.1 hmv with ⟨sv, hsv, hfst⟩
    rw [← hfst] at hb
    exact hname256 sv (List.getElem?_mem hsv) b hb

theorem take_length_append_set {α : Type} (l1 l2 : List α) (k : Nat) (b : α) :
    (l1.set k b ++ l2).take l1.length = l1.set k b := by
  rw [show l1.length = (l1.set k b).length from (List.length_set l1 k b).symm, List.take_left]

theorem drop_length_append_set {α : Type} (l1 l2 : List α) (k : Nat) (b : α) :
    (l1.set k b ++ l2).drop l1.length = l2 := by
  rw [show l1.length = (l1.set k b).length from (List.length_set l1 k b).symm, List.drop_left]

/-- Changing any single byte of the record from the schema-version byte
through the CRC field (index `j` into `schema :: payload ++ crc`) makes
the load fail the schema-version check or the CRC-32 check. -/
theorem load_record_flip (E : List Nat) (st : List MonSrv) (hE : ∀ c ∈ E, c < 256)
    (hlen : E.length + 5 < 2 ^ 32) (j b : Nat) (hb : b < 256)
    (hj : j < (2 :: (E ++ set_byteN (crc32_zlib (2 :: E)) 4)).length)
    (hne : b ≠ (2 :: (E ++ set_byteN (crc32_zlib (2 :: E)) 4)).get ⟨j, hj⟩) :
    (load_server_journal
        (set_byteN ((E ++ set_byteN (crc32_zlib (2 :: E)) 4).length + 1) 4 ++
          (2 :: (E ++ set_byteN (crc32_zlib (2 :: E)) 4)).set j b) st).1 = false := by
  have hbytes : ∀ c ∈ 2 :: E, c < 256 := by
    intro c hc
    rcases List.mem_cons.1 hc with hc | hc
    · omega
    · exact hE c hc
  have hcrclt : crc32_zlib (2 :: E) < 2 ^ 32 := crc32_zlib_lt _ hbytes
  have hRlen : (E ++ set_byteN (crc32_zlib (2 :: E)) 4).length = E.length + 4 := by
    rw [List.length_append, length_set_byteN]
  have hgetcrc : get_byteN (set_byteN (crc32_zlib (2 :: E)) 4) 4 = crc32_zlib (2 :: E) := by
    rw [show set_byteN (crc32_zlib (2 :: E)) 4 =
      set_byteN (crc32_zlib (2 :: E)) 4 ++ [] by simp]
    rw [get_set_byteN]
    exact Nat.mod_eq_of_lt (by norm_num; omega)
  cases j with
  | zero =>
    have hb2 : b ≠ 2 := by simpa [List.get] using hne
    rw [show (2 :: (E ++ set_byteN (crc32_zlib (2 :: E)) 4)).set 0 b =
      b :: (E ++ set_byteN (crc32_zlib (2 :: E)) 4) from rfl]
    rw [load_server_journal_eq b _ _ (by rw [hRlen]; omega)]
    rw [if_pos hb2]
  | succ k =>
    have hk4 : k < E.length + 4 := by
      simp only [List.length_cons, hRlen] at hj
      omega
    rw [show (2 :: (E ++ set_byteN (crc32_zlib (2 :: E)) 4)).set (k + 1) b =
      2 :: (E ++ set_byteN (crc32_zlib (2 :: E)) 4).set k b from rfl]
    rw [show (E ++ set_byteN (crc32_zlib (2 :: E)) 4).length =
      ((E ++ set_byteN (crc32_zlib (2 :: E)) 4).set k b).length
      from (List.length_set _ k b).symm]
    have hklen : ((E ++ set_byteN (crc32_zlib (2 :: E)) 4).set k b).length = E.length + 4 := by
      rw [List.length_set, hRlen]
    rw [load_server_journal_eq 2 _ _ (by rw [hklen]; omega)]
    rw [if_neg (by simp), hklen]
    rw [show E.length + 4 - 3 = E.length + 1 from by omega]
    by_cases hkE : k < E.length
    · have hsplit : (E ++ set_byteN (crc32_zlib (2 :: E)) 4).set k b =
          E.set k b ++ set_byteN (crc32_zlib (2 :: E)) 4 :=
        List.set_append_left k b hkE
      rw [hsplit, List.take_succ_cons, List.drop_succ_cons]
      rw [show E.length = (E.set k b).length from (List.length_set E k b).symm]
      rw [List.take_left, List.drop_left]
      have hne2 : b ≠ (2 :: E).get ⟨k + 1, by simp; omega⟩ := by
        intro hcontra
        apply hne
        rw [hcontra]
        simp only [List.get_eq_getElem, List.getElem_cons_succ]
        rw [List.getElem_append_left hkE]
      have hcrcne : crc32_zlib (2 :: E.set k b) ≠ crc32_zlib (2 :: E) := by
        rw [show (2 :: E.set k b) = (2 :: E).set (k + 1) b from rfl]
        exact crc32_zlib_set_ne (2 :: E) hbytes (k + 1) (by simp; omega) b hb hne2
      have hcheck : check_crc32 (2 :: E.set k b)
          (set_byteN (crc32_zlib (2 :: E)) 4) = false := by
        unfold check_crc32
        rw [hgetcrc]
        simp [hcrcne]
      rw [if_pos (by rw [hcheck])]
    · push_neg at hkE
      have hsplit : (E ++ set_byteN (crc32_zlib (2 :: E)) 4).set k b =
          E ++ (set_byteN (crc32_zlib (2 :: E)) 4).set (k - E.length) b :=
        List.set_append_right k b hkE
      rw [hsplit, List.take_succ_cons, List.drop_succ_cons, List.take_left, List.drop_left]
      have hk2 : k - E.length < 4 := by omega
      have hne3 : b ≠ (set_byteN (crc32_zlib (2 :: E)) 4).get
          ⟨k - E.length, by rw [length_set_byteN]; omega⟩ := by
        intro hcontra
        apply hne
        rw [hcontra]
        simp only [List.get_eq_getElem, List.getElem_cons_succ]
        rw [List.getElem_append_right hkE]
      have hgetne : get_byteN ((set_byteN (crc32_zlib (2 :: E)) 4).set (k - E.length) b) 4 ≠
          crc32_zlib (2 :: E) := by
        have h := get_byteN_set_ne (set_byteN (crc32_zlib (2 :: E)) 4) 4 (k - E.length)
          (by rw [length_set_byteN]; omega) hk2 b hne3
        rw [hgetcrc] at h
        exact h
      have hne4 : crc32_zlib (2 :: E) ≠
          get_byteN ((set_byteN (crc32_zlib (2 :: E)) 4).set (k - E.length) b) 4 :=
        fun h => hgetne h.symm
      have hcheck : check_crc32 (2 :: E)
          ((set_byteN (crc32_zlib (2 :: E)) 4).set (k - E.length) b) = false := by
        unfold check_crc32
        simp [hne4]
      rw [if_pos (by rw [hcheck])]

/-- **C1**: Journal round-trip.  Encoding a legal in-memory snapshot
(each monitored server's status in server-list order plus an optional
master entry) with the journal write path (`store_data`) and decoding
it via the journal read path (`load_server_journal`) restores every
monitored server's `mon_prev_status` and live status and the noted
master; and changing any single byte of the encoded record from the
schema-version byte through the CRC field causes the load to be
rejected (by the schema-version check or the CRC-32 check). -/
theorem C1_journal_round_trip (servers : List (List Nat × Nat)) (masterIdx : Option Nat)
    (hname0 : ∀ sv ∈ servers, 0 ∉ sv.1)
    (hname256 : ∀ sv ∈ servers, ∀ b ∈ sv.1, b < 256)
    (hnodup : (servers.map Prod.fst).Nodup)
    (hstatus : ∀ sv ∈ servers, sv.2 < 2 ^ 64)
    (hsize : journal_size servers (master_name servers masterIdx) < 2 ^ 32)
    (hm : ∀ m, masterIdx = some m → m < servers.length) :
    load_server_journal (store_data servers (master_name servers masterIdx))
        (servers.map cold_server) =
      (true, servers.map loaded_server, masterIdx) ∧
    ∀ i b, 4 ≤ i → b < 256 →
      ∀ hi : i < (store_data servers (master_name servers masterIdx)).length,
      b ≠ (store_data servers (master_name servers masterIdx)).get ⟨i, hi⟩ →
      (load_server_journal ((store_data servers (master_name servers masterIdx)).set i b)
          (servers.map cold_server)).1 = false := by
  refine ⟨load_store_round servers masterIdx hname0 hname256 hnodup hstatus hsize hm, ?_⟩
  intro i b h4i hb hi hne
  have hElt : ∀ c ∈ journal_entries servers (master_name servers masterIdx), c < 256 :=
    journal_entries_lt _ _ hname256 (master_name_lt servers masterIdx hname256)
  have hEsz : (journal_entries servers (master_name servers masterIdx)).length + 5 < 2 ^ 32 := by
    have := length_journal_entries servers (master_name servers masterIdx)
    omega
  have hshape := store_data_shape servers (master_name servers masterIdx)
  have hRlen : (journal_entries servers (master_name servers masterIdx) ++
      set_byteN (crc32_zlib (2 :: journal_entries servers (master_name servers masterIdx))) 4).length
      = (journal_entries servers (master_name servers masterIdx)).length + 4 := by
    rw [List.length_append, length_set_byteN]
  have hilen : i < (set_byteN ((journal_entries servers (master_name servers masterIdx) ++
      set_byteN (crc32_zlib (2 :: journal_entries servers (master_name servers masterIdx))) 4).length
      + 1) 4 ++ 2 :: (journal_entries servers (master_name servers masterIdx) ++
      set_byteN (crc32_zlib (2 :: journal_entries servers (master_name servers masterIdx))) 4)).length := by
    rw [← hshape]
    exact hi
  have hpre : (set_byteN ((journal_entries servers (master_name servers masterIdx) ++
      set_byteN (crc32_zlib (2 :: journal_entries servers (master_name servers masterIdx))) 4).length
      + 1) 4).length ≤ i := by
    rw [length_set_byteN]
    exact h4i
  have hj : i - 4 < (2 :: (journal_entries servers (master_name servers masterIdx) ++
      set_byteN (crc32_zlib (2 :: journal_entries servers (master_name servers masterIdx))) 4)).length := by
    simp only [List.length_append, length_set_byteN, List.length_cons] at hilen ⊢
    omega
  have hget : (store_data servers (master_name servers masterIdx)).get ⟨i, hi⟩ =
      (2 :: (journal_entries servers (master_name servers masterIdx) ++
        set_byteN (crc32_zlib (2 :: journal_entries servers (master_name servers masterIdx))) 4)).get
        ⟨i - 4, hj⟩ := by
    rw [List.get_eq_getElem, List.get_eq_getElem]
    rw [List.getElem_of_eq hshape hi]
    rw [List.getElem_append_right hpre]
    simp [length_set_byteN]
  have hset : (store_data servers (master_name servers masterIdx)).set i b =
      set_byteN ((journal_entries servers (master_name servers masterIdx) ++
        set_byteN (crc32_zlib (2 :: journal_entries servers (master_name servers masterIdx))) 4).length
        + 1) 4 ++
      (2 :: (journal_entries servers (master_name servers masterIdx) ++
        set_byteN (crc32_zlib (2 :: journal_entries servers (master_name servers masterIdx))) 4)).set
        (i - 4) b := by
    rw [hshape, List.set_append_right i b hpre, length_set_byteN]
  rw [hset]
  exact load_record_flip _ _ hElt hEsz (i - 4) b hb hj (by rw [← hget]; exact hne)

/-- Witness for C1 at a concrete one-server snapshot with master. -/
theorem C1_journal_round_trip_witness :
    load_server_journal (store_data [([65], 5)] (master_name [([65], 5)] (some 0)))
        ([([65], 5)].map cold_server) =
      (true, [([65], 5)].map loaded_server, some 0) ∧
    (load_server_journal ((store_data [([65], 5)] (master_name [([65], 5)] (some 0))).set 4 3)
        ([([65], 5)].map cold_server)).1 = false := by
  have h := C1_journal_round_trip [([65], 5)] (some 0)
    (by decide) (by decide) (by decide) (by norm_num) (by decide) (by decide)
  exact ⟨h.1, h.2 4 3 (by norm_num) (by norm_num) (by decide) (by decide)⟩

/-! ## The event classifier -/

/-- The monitor event values of `mxs_monitor_event_t`
(`maxscale/monitor.hh`) that the classifier can produce. -/
inductive MonitorEvent
  | UNDEFINED_EVENT
  | MASTER_DOWN_EVENT
  | MASTER_UP_EVENT
  | SLAVE_DOWN_EVENT
  | SLAVE_UP_EVENT
  | SERVER_DOWN_EVENT
  | SERVER_UP_EVENT
  | SYNCED_DOWN_EVENT
  | SYNCED_UP_EVENT
  | LOST_MASTER_EVENT
  | LOST_SLAVE_EVENT
  | LOST_SYNCED_EVENT
  | NEW_MASTER_EVENT
  | NEW_SLAVE_EVENT
  | NEW_SYNCED_EVENT
  deriving DecidableEq, Repr

/-- The local `general_event_type` of `get_event_type`. -/
inductive GeneralEventType
  | DOWN_EVENT
  | UP_EVENT
  | LOSS_EVENT
  | NEW_EVENT
  | UNSUPPORTED_EVENT
  deriving DecidableEq, Repr

/-- `MonitorServer::get_event_type` (`monitor.cc` 803-908) as a function
of `mon_prev_status` and the live `server->status`, in release semantics
(`mxb_assert` is a no-op, so the impossible branches fall through to
`UNDEFINED_EVENT`). -/
def get_event_type (mon_prev_status status : Nat) : MonitorEvent :=
  let prev := mon_prev_status &&& all_server_bits
  let present := status &&& all_server_bits
  if prev = present then MonitorEvent.UNDEFINED_EVENT
  else
    let event_type : GeneralEventType :=
      if prev &&& SERVER_RUNNING = 0 then
        if present &&& SERVER_RUNNING ≠ 0 then GeneralEventType.UP_EVENT
        else GeneralEventType.UNSUPPORTED_EVENT
      else if present &&& SERVER_RUNNING = 0 then GeneralEventType.DOWN_EVENT
      else if (prev &&& (SERVER_MASTER ||| SERVER_SLAVE) = 0 ∨
          present &&& (SERVER_MASTER ||| SERVER_SLAVE) = 0 ∨
          prev &&& (SERVER_MASTER ||| SERVER_SLAVE) =
            present &&& (SERVER_MASTER ||| SERVER_SLAVE)) ∧
          prev &&& server_type_bits ≠ 0 then
        GeneralEventType.LOSS_EVENT
      else GeneralEventType.NEW_EVENT
    match event_type with
    | GeneralEventType.UP_EVENT =>
      if present &&& SERVER_MASTER ≠ 0 then MonitorEvent.MASTER_UP_EVENT
      else if present &&& SERVER_SLAVE ≠ 0 then MonitorEvent.SLAVE_UP_EVENT
      else if present &&& SERVER_JOINED ≠ 0 then MonitorEvent.SYNCED_UP_EVENT
      else MonitorEvent.SERVER_UP_EVENT
    | GeneralEventType.DOWN_EVENT =>
      if prev &&& SERVER_MASTER ≠ 0 then MonitorEvent.MASTER_DOWN_EVENT
      else if prev &&& SERVER_SLAVE ≠ 0 then MonitorEvent.SLAVE_DOWN_EVENT
      else if prev &&& SERVER_JOINED ≠ 0 then MonitorEvent.SYNCED_DOWN_EVENT
      else MonitorEvent.SERVER_DOWN_EVENT
    | GeneralEventType.LOSS_EVENT =>
      if prev &&& SERVER_MASTER ≠ 0 then MonitorEvent.LOST_MASTER_EVENT
      else if prev &&& SERVER_SLAVE ≠ 0 then MonitorEvent.LOST_SLAVE_EVENT
      else if prev &&& SERVER_JOINED ≠ 0 then MonitorEvent.LOST_SYNCED_EVENT
      else MonitorEvent.UNDEFINED_EVENT
    | GeneralEventType.NEW_EVENT =>
      if present &&& SERVER_MASTER ≠ 0 then MonitorEvent.NEW_MASTER_EVENT
      else if present &&& SERVER_SLAVE ≠ 0 then MonitorEvent.NEW_SLAVE_EVENT
      else if present &&& SERVER_JOINED ≠ 0 then MonitorEvent.NEW_SYNCED_EVENT
      else MonitorEvent.UNDEFINED_EVENT
    | GeneralEventType.UNSUPPORTED_EVENT => MonitorEvent.UNDEFINED_EVENT

/-- `MonitorServer::status_changed` (`monitor.cc` 988-1013). -/
def status_changed (mon_prev_status status : Nat) : Bool :=
  if mon_prev_status = STATUS_SENTINEL then false
  else
    decide (mon_prev_status &&& all_server_bits ≠ status &&& all_server_bits ∧
      (mon_prev_status &&& all_server_bits ||| status &&& all_server_bits) &&&
        SERVER_MAINT = 0 ∧
      (mon_prev_status &&& all_server_bits ||| status &&& all_server_bits) &&&
        SERVER_RUNNING = SERVER_RUNNING)

/-- The per-server event collection of
`Monitor::detect_handle_state_changes` (`monitor.cc` 1413-1455): each
server whose `status_changed()` holds is classified with
`get_event_type`, stamped and logged (and the script launched when the
event is in the mask); the others are skipped entirely. -/
def detect_handle_state_changes (servers : List MonSrv) : List (MonSrv × MonitorEvent) :=
  (servers.filter (fun s => status_changed s.mon_prev_status s.status)).map
    (fun s => (s, get_event_type s.mon_prev_status s.status))

theorem and_all_idem (p : Nat) :
    (p &&& all_server_bits) &&& all_server_bits = p &&& all_server_bits := by
  rw [Nat.and_assoc, Nat.and_self]

theorem get_event_type_mask (p c : Nat) :
    get_event_type p c = get_event_type (p &&& all_server_bits) (c &&& all_server_bits) := by
  unfold get_event_type
  rw [and_all_idem, and_all_idem]

theorem and_all_lt (p : Nat) : p &&& all_server_bits < 32 :=
  lt_of_le_of_lt Nat.and_le_right (by decide)

/-- **C2 counterexample**: with `prev` and `curr` already masked to the
reportable bits and unequal, the classifier can still return
`UNDEFINED_EVENT`: when both sides lack `RUNNING` (prev = `MAINT`,
curr = 0), and when both sides run without role bits and only `MAINT`
differs (prev = `RUNNING`, curr = `RUNNING | MAINT`). -/
theorem C2_event_defined_counterexample :
    SERVER_MAINT &&& all_server_bits ≠ 0 &&& all_server_bits ∧
    get_event_type SERVER_MAINT 0 = MonitorEvent.UNDEFINED_EVENT ∧
    SERVER_RUNNING &&& all_server_bits ≠
      (SERVER_RUNNING ||| SERVER_MAINT) &&& all_server_bits ∧
    get_event_type SERVER_RUNNING (SERVER_RUNNING ||| SERVER_MAINT) =
      MonitorEvent.UNDEFINED_EVENT := by
  decide

/-- **C2 (amended)**: for every pair of status bitmaps whose masked
reportable bits differ, provided additionally that neither masked side
has `MAINT` set and at least one has `RUNNING` set (the `status_changed`
guard under which `get_event_type` is reachable), the classifier
returns a defined typed event, never `UNDEFINED_EVENT`. -/
theorem C2_event_defined (p c : Nat)
    (hne : p &&& all_server_bits ≠ c &&& all_server_bits)
    (hmaint : (p &&& all_server_bits ||| c &&& all_server_bits) &&& SERVER_MAINT = 0)
    (hrun : (p &&& all_server_bits ||| c &&& all_server_bits) &&& SERVER_RUNNING =
      SERVER_RUNNING) :
    get_event_type p c ≠ MonitorEvent.UNDEFINED_EVENT := by
  have key : ∀ a, a < 32 → ∀ b, b < 32 → a ≠ b → (a ||| b) &&& SERVER_MAINT = 0 →
      (a ||| b) &&& SERVER_RUNNING = SERVER_RUNNING →
      get_event_type a b ≠ MonitorEvent.UNDEFINED_EVENT := by decide
  rw [get_event_type_mask]
  exact key _ (and_all_lt p) _ (and_all_lt c) hne hmaint hrun

/-- Witness for C2 at prev = `MAINT | MASTER` (masked: server was
running as master), curr = `RUNNING | SLAVE`. -/
theorem C2_event_defined_witness :
    SERVER_MASTER &&& all_server_bits ≠
      (SERVER_RUNNING ||| SERVER_SLAVE) &&& all_server_bits ∧
    get_event_type SERVER_MASTER (SERVER_RUNNING ||| SERVER_SLAVE) ≠
      MonitorEvent.UNDEFINED_EVENT :=
  ⟨by decide, C2_event_defined SERVER_MASTER (SERVER_RUNNING ||| SERVER_SLAVE)
    (by decide) (by decide) (by decide)⟩

/-- **C10**: Sentinel guard.  For every `MonitorServer` whose
`mon_prev_status` still holds the sentinel `-1` (all 64 bits set),
`status_changed()` returns false for every live status value, and hence
the state-change pass of `detect_handle_state_changes` never classifies
an event for a server that has not completed a first observation. -/
theorem C10_sentinel_guard :
    (∀ status : Nat, status_changed STATUS_SENTINEL status = false) ∧
    ∀ servers : List MonSrv, ∀ p ∈ detect_handle_state_changes servers,
      p.1.mon_prev_status ≠ STATUS_SENTINEL := by
  constructor
  · intro status
    simp [status_changed]
  · intro servers p hp hcontra
    rcases List.mem_map.1 hp with ⟨s, hs, hps⟩
    have hchanged := (List.mem_filter.1 hs).2
    rw [← hps] at hcontra
    rw [hcontra] at hchanged
    simp [status_changed] at hchanged

/-- Witness for C10: the sentinel silences a server even when its live
status changed, while a genuinely observed server still produces its
event. -/
theorem C10_sentinel_guard_witness :
    status_changed STATUS_SENTINEL (SERVER_RUNNING ||| SERVER_MASTER) = false ∧
    (⟨[65], SERVER_RUNNING, 0, 0, StatusRequest.NO_CHANGE⟩ : MonSrv).mon_prev_status ≠
      STATUS_SENTINEL :=
  ⟨C10_sentinel_guard.1 (SERVER_RUNNING ||| SERVER_MASTER),
    C10_sentinel_guard.2 [⟨[65], SERVER_RUNNING, 0, 0, StatusRequest.NO_CHANGE⟩]
      (⟨[65], SERVER_RUNNING, 0, 0, StatusRequest.NO_CHANGE⟩,
        MonitorEvent.SERVER_UP_EVENT) (by decide)⟩

/-! ## Disk-space check -/

/-- `maxscale::disk::SizesAndName` (outside the given sources): byte
counts of one mount as reported by the backend. -/
structure SizesAndName where
  total : Nat
  available : Nat
  deriving DecidableEq, Repr

/-- `check_disk_space_exhausted` (`monitor.cc` 415-437): the used
percentage `((total - available) / (double)total) * 100` truncated to
`int32_t` (modelled as exact natural division) meets or exceeds the
threshold; an error is logged for the path when it does. -/
def check_disk_space_exhausted (san : SizesAndName) (max_percentage : Int) : Bool :=
  ((san.total - san.available) * 100 / san.total : Nat) ≥ max_percentage

/-- The `rv == 0` branch of `MonitorServer::update_disk_space_status`
(`monitor.cc` 2044-2110), given the merged limits `dst` (a `std::map`,
iterated in ascending path order) and the mount info (likewise
ordered): the explicit-path loop accumulating
`(disk_space_exhausted, star_max_percentage, checked_paths)`, then the
wildcard loop, then setting or clearing `DISK_SPACE_EXHAUSTED` in the
pending status. -/
def update_disk_space_status (dst : List (String × Int))
    (info : List (String × SizesAndName)) (pending_status : Nat) : Nat :=
  let s1 := dst.foldl
    (fun (acc : Bool × Int × List String) item =>
      if item.1 = "*" then (acc.1, item.2, acc.2.2)
      else
        match info.find? (fun j => j.1 == item.1) with
        | some j => (check_disk_space_exhausted j.2 item.2, acc.2.1, item.1 :: acc.2.2)
        | none => acc)
    (false, -1, [])
  let exhausted :=
    if s1.2.1 ≠ -1 then
      info.foldl
        (fun (acc : Bool) j =>
          if s1.2.2.contains j.1 then acc
          else check_disk_space_exhausted j.2 s1.2.1)
        s1.1
    else s1.1
  if exhausted then pending_status ||| SERVER_DISK_SPACE_EXHAUSTED
  else pending_status &&& (STATUS_SENTINEL ^^^ SERVER_DISK_SPACE_EXHAUSTED)

/-- **C4**: code bug.  With two watched paths, `/a` at 90% used against
a 50% threshold and `/b` at 10%, the per-path check reports `/a`
exhausted (and logs the exhaustion error), yet `update_disk_space_status`
leaves `DISK_SPACE_EXHAUSTED` cleared: each loop iteration overwrites
`disk_space_exhausted` by plain assignment
(`disk_space_exhausted = check_disk_space_exhausted(...)`,
`monitor.cc` 2073 and 2097), so only the last checked path decides. -/
theorem C4_disk_space_overwrite :
    check_disk_space_exhausted ⟨100, 10⟩ 50 = true ∧
    check_disk_space_exhausted ⟨100, 90⟩ 50 = false ∧
    update_disk_space_status [("/a", 50), ("/b", 50)]
      [("/a", ⟨100, 10⟩), ("/b", ⟨100, 90⟩)] 0 = 0 ∧
    update_disk_space_status [("/a", 50), ("/b", 50)]
      [("/a", ⟨100, 10⟩), ("/b", ⟨100, 90⟩)] 0 &&& SERVER_DISK_SPACE_EXHAUSTED = 0 := by
  decide

/-! ## Permissions check -/

/-- MySQL error codes from `mysqld_error.h` (outside the given sources),
with their published numeric values. -/
def ER_ACCESS_DENIED_ERROR : Nat := 1045
def ER_DBACCESS_DENIED_ERROR : Nat := 1044
def ER_ACCESS_DENIED_NO_PASSWORD_ERROR : Nat := 1698
def ER_TABLEACCESS_DENIED_ERROR : Nat := 1142
def ER_COLUMNACCESS_DENIED_ERROR : Nat := 1143
def ER_SPECIFIC_ACCESS_DENIED_ERROR : Nat := 1227
def ER_PROCACCESS_DENIED_ERROR : Nat := 1370
def ER_KILL_DENIED_ERROR : Nat := 1095

/-- `mxs_connect_result_t` (`maxscale/monitor.hh`). -/
inductive ConnectResult
  | MONITOR_CONN_EXISTING_OK
  | MONITOR_CONN_NEWCONN_OK
  | MONITOR_CONN_TIMEOUT
  | MONITOR_CONN_REFUSED
  deriving DecidableEq, Repr

/-- `Monitor::connection_is_ok` (`monitor.cc` 1306-1309). -/
def connection_is_ok (r : ConnectResult) : Bool :=
  r == ConnectResult.MONITOR_CONN_EXISTING_OK ||
    r == ConnectResult.MONITOR_CONN_NEWCONN_OK

/-- The observable outcome of probing one server during the permissions
check: the `ping_or_connect` result, `mysql_errno` after a failed
connect, whether the probe query failed, and its `mysql_errno`. -/
structure PermProbe where
  conn : ConnectResult
  conn_errno : Nat
  query_fails : Bool
  query_errno : Nat
  deriving DecidableEq, Repr

/-- `Monitor::test_permissions` (`monitor.cc` 703-777) over the probe
outcomes of the monitored servers, with `skip_permission_checks` off:
`rval` starts `false` and the loop updates it per server exactly as the
switch statements do.  `true` lets the monitor start. -/
def test_permissions (probes : List PermProbe) : Bool :=
  if probes.isEmpty then true
  else
    probes.foldl
      (fun rval p =>
        if ¬ connection_is_ok p.conn then
          if p.conn_errno = ER_ACCESS_DENIED_ERROR ∨
              p.conn_errno = ER_DBACCESS_DENIED_ERROR ∨
              p.conn_errno = ER_ACCESS_DENIED_NO_PASSWORD_ERROR then rval
          else true
        else if p.query_fails then
          if p.query_errno = ER_TABLEACCESS_DENIED_ERROR ∨
              p.query_errno = ER_COLUMNACCESS_DENIED_ERROR ∨
              p.query_errno = ER_SPECIFIC_ACCESS_DENIED_ERROR ∨
              p.query_errno = ER_PROCACCESS_DENIED_ERROR ∨
              p.query_errno = ER_KILL_DENIED_ERROR then false
          else true
        else true)
      false

/-- **C5 counterexample**: with a single monitored server whose
connection succeeds but whose probe query fails with
`ER_TABLEACCESS_DENIED_ERROR`, `test_permissions` returns `false`
(the monitor refuses to start), while the claim says it returns OK. -/
theorem C5_test_permissions_counterexample :
    test_permissions
      [⟨ConnectResult.MONITOR_CONN_NEWCONN_OK, 0, true, ER_TABLEACCESS_DENIED_ERROR⟩] =
      false := by
  decide

/-- **C5 (amended)**: for a monitor with a single monitored server: if
the connection succeeds and the probe query fails with a table-,
column-, specific-, procedure- or kill-access-denied error, the check
is fatal (`test_permissions` returns `false`, the monitor refuses to
start); if the query fails with any other error, the soft failure still
allows the monitor to start; and if the connection itself fails with an
access-denied error on the monitor user, the check is fatal. -/
theorem C5_test_permissions (p : PermProbe) :
    (connection_is_ok p.conn = true → p.query_fails = true →
      (p.query_errno = ER_TABLEACCESS_DENIED_ERROR ∨
        p.query_errno = ER_COLUMNACCESS_DENIED_ERROR ∨
        p.query_errno = ER_SPECIFIC_ACCESS_DENIED_ERROR ∨
        p.query_errno = ER_PROCACCESS_DENIED_ERROR ∨
        p.query_errno = ER_KILL_DENIED_ERROR) →
      test_permissions [p] = false) ∧
    (connection_is_ok p.conn = true → p.query_fails = true →
      ¬ (p.query_errno = ER_TABLEACCESS_DENIED_ERROR ∨
        p.query_errno = ER_COLUMNACCESS_DENIED_ERROR ∨
        p.query_errno = ER_SPECIFIC_ACCESS_DENIED_ERROR ∨
        p.query_errno = ER_PROCACCESS_DENIED_ERROR ∨
        p.query_errno = ER_KILL_DENIED_ERROR) →
      test_permissions [p] = true) ∧
    (connection_is_ok p.conn = false →
      (p.conn_errno = ER_ACCESS_DENIED_ERROR ∨
        p.conn_errno = ER_DBACCESS_DENIED_ERROR ∨
        p.conn_errno = ER_ACCESS_DENIED_NO_PASSWORD_ERROR) →
      test_permissions [p] = false) := by
  refine ⟨?_, ?_, ?_⟩
  · intro h1 h2 h3
    have hnc : ¬ (¬ connection_is_ok p.conn = true) := by simp [h1]
    simp only [test_permissions, List.isEmpty_cons, List.foldl_cons, List.foldl_nil]
    rw [if_neg hnc, if_pos h2, if_pos h3]
    decide
  · intro h1 h2 h3
    have hnc : ¬ (¬ connection_is_ok p.conn = true) := by simp [h1]
    simp only [test_permissions, List.isEmpty_cons, List.foldl_cons, List.foldl_nil]
    rw [if_neg hnc, if_pos h2, if_neg h3]
    decide
  · intro h1 h2
    have hc : ¬ connection_is_ok p.conn = true := by simp [h1]
    simp only [test_permissions, List.isEmpty_cons, List.foldl_cons, List.foldl_nil]
    rw [if_pos hc, if_pos h2]
    decide

/-- Witness for C5: the three classifications at concrete probe
outcomes. -/
theorem C5_test_permissions_witness :
    test_permissions [⟨ConnectResult.MONITOR_CONN_NEWCONN_OK, 0, true, 1227⟩] = false ∧
    test_permissions [⟨ConnectResult.MONITOR_CONN_NEWCONN_OK, 0, true, 1064⟩] = true ∧
    test_permissions [⟨ConnectResult.MONITOR_CONN_REFUSED, 1045, false, 0⟩] = false :=
  ⟨(C5_test_permissions ⟨ConnectResult.MONITOR_CONN_NEWCONN_OK, 0, true, 1227⟩).1
      (by decide) (by decide) (by decide),
   (C5_test_permissions ⟨ConnectResult.MONITOR_CONN_NEWCONN_OK, 0, true, 1064⟩).2.1
      (by decide) (by decide) (by decide),
   (C5_test_permissions ⟨ConnectResult.MONITOR_CONN_REFUSED, 1045, false, 0⟩).2.2
      (by decide) (by decide)⟩

/-! ## Server ownership -/

/-- The global `servername → monitorname` map of `ThisUnit`
(`monitor.cc` 147-149), modelled as a lookup function. -/
def OwnershipTable : Type := String → Option String

/-- `ThisUnit::claim_server` (`monitor.cc` 102-118): if the server is
already claimed, fail and report the existing owner through the
`existing_owner` out-parameter; otherwise record the claimant.  Returns
(success, reported existing owner, table afterwards). -/
def claim_server (tbl : OwnershipTable) (server new_owner : String) :
    Bool × Option String × OwnershipTable :=
  match tbl server with
  | some owner => (false, some owner, tbl)
  | none => (true, none, fun s => if s = server then some new_owner else tbl s)

/-- `ThisUnit::claimed_by` (`monitor.cc` 134-144). -/
def claimed_by (tbl : OwnershipTable) (server : String) : Option String := tbl server

/-- `Monitor::add_server` (`monitor.cc` 563-582): claim first; the
`MonitorServer` is appended to `m_servers` only when the claim
succeeded. -/
def add_server (tbl : OwnershipTable) (monitor_name server_name : String)
    (m_servers : List String) : Bool × OwnershipTable × List String :=
  if (claim_server tbl server_name monitor_name).1 then
    (true, (claim_server tbl server_name monitor_name).2.2, m_servers ++ [server_name])
  else
    (false, (claim_server tbl server_name monitor_name).2.2, m_servers)

/-- **C9**: Single owner.  The ownership table maps each server name to
at most one monitor; `claim_server` on a claimed server fails, reports
the recorded owner and leaves the table unchanged — also when the
claimant equals the recorded owner — while a successful claim on an
unclaimed server records the claimant and changes no other entry, and
`add_server` appends the server to `m_servers` iff the claim
succeeded. -/
theorem C9_single_owner :
    (∀ (tbl : OwnershipTable) (server owner m : String), tbl server = some owner →
      claim_server tbl server m = (false, some owner, tbl)) ∧
    (∀ (tbl : OwnershipTable) (server m : String), tbl server = some m →
      claim_server tbl server m = (false, some m, tbl)) ∧
    (∀ (tbl : OwnershipTable) (server m : String), tbl server = none →
      (claim_server tbl server m).1 = true ∧
      claimed_by (claim_server tbl server m).2.2 server = some m ∧
      ∀ s, s ≠ server → claimed_by (claim_server tbl server m).2.2 s = claimed_by tbl s) ∧
    (∀ (tbl : OwnershipTable) (mon srv : String) (lst : List String), tbl srv = none →
      (add_server tbl mon srv lst).1 = true ∧
      (add_server tbl mon srv lst).2.2 = lst ++ [srv]) ∧
    (∀ (tbl : OwnershipTable) (mon srv : String) (lst : List String) (owner : String),
      tbl srv = some owner →
      add_server tbl mon srv lst = (false, tbl, lst)) := by
  refine ⟨?_, ?_, ?_, ?_, ?_⟩
  · intro tbl server owner m h
    simp [claim_server, h]
  · intro tbl server m h
    simp [claim_server, h]
  · intro tbl server m h
    refine ⟨by simp [claim_server, h], by simp [claim_server, claimed_by, h], ?_⟩
    intro s hs
    simp [claim_server, claimed_by, h, hs]
  · intro tbl mon srv lst h
    constructor <;> simp [add_server, claim_server, h]
  · intro tbl mon srv lst owner h
    simp [add_server, claim_server, h]

/-- Witness for C9 at a concrete two-entry scenario. -/
theorem C9_single_owner_witness :
    claim_server (fun s => if s = "A" then some "M1" else none) "A" "M2" =
      (false, some "M1", fun s => if s = "A" then some "M1" else none) ∧
    claim_server (fun s => if s = "A" then some "M1" else none) "A" "M1" =
      (false, some "M1", fun s => if s = "A" then some "M1" else none) ∧
    (claim_server (fun _ => none) "B" "M2").1 = true ∧
    claimed_by (claim_server (fun _ => none) "B" "M2").2.2 "B" = some "M2" ∧
    (add_server (fun _ => none) "M2" "B" []).2.2 = ["B"] ∧
    add_server (fun s => if s = "A" then some "M1" else none) "M2" "A" [] =
      (false, fun s => if s = "A" then some "M1" else none, []) :=
  ⟨C9_single_owner.1 _ "A" "M1" "M2" (by simp),
   C9_single_owner.2.1 _ "A" "M1" (by simp),
   (C9_single_owner.2.2.1 _ "B" "M2" (by simp)).1,
   (C9_single_owner.2.2.1 _ "B" "M2" (by simp)).2.1,
   (C9_single_owner.2.2.2.1 _ "M2" "B" [] (by simp)).2,
   C9_single_owner.2.2.2.2 _ "M2" "A" [] "M1" (by simp)⟩

/-! ## Hash-gated journal write -/

/-- The file-system outcomes `store_server_journal` can encounter on
one invocation: whether `open_tmp_file` produced a stream, whether
`fwrite` wrote the whole buffer and `fflush` succeeded, and whether the
rename over `monitor.dat` succeeded. -/
structure WriteOutcome where
  open_ok : Bool
  write_ok : Bool
  rename_ok : Bool
  deriving DecidableEq, Repr

/-- The state `store_server_journal` maintains across ticks: the stored
digest of the last successfully renamed journal (`m_journal_hash`,
zeroed in the `Monitor` constructor), the `monitor.dat` content, and a
count of write attempts (calls that reach `open_tmp_file`). -/
structure JournalWriteState where
  journal_hash : Nat
  file : Option (List Nat)
  write_attempts : Nat
  deriving DecidableEq, Repr

/-- `Monitor::store_server_journal` (`monitor.cc` 1493-1556) given the
encoded snapshot `data`, an abstract digest function `hash` (SHA-1 is
outside the given sources) and the I/O outcomes: file I/O is attempted
iff the digest of `data` differs from the stored digest; the stored
digest is updated only when write, flush and rename all succeed (on
rename failure the temp file is unlinked, on write failure the error is
logged, and the digest is kept so the next tick retries). -/
def store_server_journal (hash : List Nat → Nat) (data : List Nat) (io : WriteOutcome)
    (st : JournalWriteState) : JournalWriteState :=
  if hash data ≠ st.journal_hash then
    if io.open_ok then
      if io.write_ok then
        if io.rename_ok then
          { journal_hash := hash data, file := some data,
            write_attempts := st.write_attempts + 1 }
        else { st with write_attempts := st.write_attempts + 1 }
      else { st with write_attempts := st.write_attempts + 1 }
    else { st with write_attempts := st.write_attempts + 1 }
  else st

/-- **C6**: Hash-gated journal write.  `store_server_journal` performs
file I/O iff the digest of the newly encoded snapshot differs from the
stored last-write digest; on a failed write, flush or rename the stored
digest is not updated, so the next tick retries; and when a tick's
write fully succeeds, a second tick with an identical encoded snapshot
performs no file I/O at all. -/
theorem C6_hash_gated_write (hash : List Nat → Nat) (data : List Nat) (io : WriteOutcome)
    (st : JournalWriteState) :
    (hash data = st.journal_hash → store_server_journal hash data io st = st) ∧
    (hash data ≠ st.journal_hash →
      (store_server_journal hash data io st).write_attempts = st.write_attempts + 1) ∧
    (io.write_ok = false ∨ io.rename_ok = false →
      (store_server_journal hash data io st).journal_hash = st.journal_hash) ∧
    (hash data ≠ st.journal_hash → io.open_ok = true → io.write_ok = true →
      io.rename_ok = true →
      ∀ io2, store_server_journal hash data io2 (store_server_journal hash data io st) =
        store_server_journal hash data io st) := by
  refine ⟨?_, ?_, ?_, ?_⟩
  · intro h
    simp [store_server_journal, h]
  · intro h
    unfold store_server_journal
    rw [if_pos h]
    rcases io with ⟨o, w, r⟩
    cases o <;> cases w <;> cases r <;> simp
  · intro h
    unfold store_server_journal
    rcases io with ⟨o, w, r⟩
    rcases h with h | h <;> rw [h] <;> split <;> cases o <;> cases w <;> cases r <;>
      simp_all
  · intro h ho hw hr io2
    unfold store_server_journal
    rw [if_pos h, ho, hw, hr]
    simp

/-- Witness for C6 with the digest modelled as the list length. -/
theorem C6_hash_gated_write_witness :
    store_server_journal List.length [2, 7] ⟨true, true, true⟩ ⟨0, none, 0⟩ =
      ⟨2, some [2, 7], 1⟩ ∧
    (store_server_journal List.length [2, 7] ⟨true, false, true⟩
      ⟨0, none, 0⟩).journal_hash = 0 ∧
    store_server_journal List.length [2, 7] ⟨true, true, true⟩
      (store_server_journal List.length [2, 7] ⟨true, true, true⟩ ⟨0, none, 0⟩) =
      store_server_journal List.length [2, 7] ⟨true, true, true⟩ ⟨0, none, 0⟩ := by
  refine ⟨by decide, ?_, ?_⟩
  · exact (C6_hash_gated_write List.length [2, 7] ⟨true, false, true⟩ ⟨0, none, 0⟩).2.2.1
      (Or.inl rfl)
  · exact (C6_hash_gated_write List.length [2, 7] ⟨true, true, true⟩ ⟨0, none, 0⟩).2.2.2
      (by decide) rfl rfl rfl ⟨true, true, true⟩

/-! ## The simple-worker tick loop -/

/-- `MonitorServer::set_pending_status` (`monitor.cc` 785-788). -/
def set_pending (pending bits : Nat) : Nat := pending ||| bits

/-- `MonitorServer::clear_pending_status` (`monitor.cc` 790-793):
`pending_status &= ~bits` on `uint64_t`. -/
def clear_pending (pending bits : Nat) : Nat :=
  pending &&& (STATUS_SENTINEL ^^^ (bits &&& STATUS_SENTINEL))

/-- Modelled from the spec: `SERVER::is_in_maint` (outside the given
sources) tests the `MAINT` admin bit (§3). -/
def is_in_maint (status : Nat) : Bool := status &&& SERVER_MAINT ≠ 0

/-- Modelled from the spec: the module-specific `update_server_status`
hook "sets role bits" (§4.8 step 3); it replaces the role bits of the
pending status with the module's assignment and touches nothing else. -/
def update_server_status_hook (pending roles : Nat) : Nat :=
  (pending &&& (STATUS_SENTINEL ^^^ server_type_bits)) ||| (roles &&& server_type_bits)

/-- The cluster-level state the tick loop reads and writes: the server
list and the `m_status_change_pending` flag. -/
structure MonitorState where
  servers : List MonSrv
  status_change_pending : Bool
  deriving DecidableEq, Repr

/-- One entry of the drain loop of `Monitor::check_maintenance_requests`
(`monitor.cc` 1383-1408): atomically consume the pending request and
apply the admin-bit mutation to the live status. -/
def apply_status_request (s : MonSrv) : MonSrv :=
  match s.status_request with
  | StatusRequest.MAINT_ON =>
    { s with status := SERVER_set_status s.status SERVER_MAINT,
             status_request := StatusRequest.NO_CHANGE }
  | StatusRequest.MAINT_OFF =>
    { s with status := SERVER_clear_status s.status SERVER_MAINT,
             status_request := StatusRequest.NO_CHANGE }
  | StatusRequest.BEING_DRAINED_ON =>
    { s with status := SERVER_set_status s.status SERVER_DRAINING,
             status_request := StatusRequest.NO_CHANGE }
  | StatusRequest.BEING_DRAINED_OFF =>
    { s with status := SERVER_clear_status s.status SERVER_DRAINING,
             status_request := StatusRequest.NO_CHANGE }
  | StatusRequest.NO_CHANGE => { s with status_request := StatusRequest.NO_CHANGE }

/-- `Monitor::check_maintenance_requests` (`monitor.cc` 1373-1411):
when `m_status_change_pending` was set, drain every server's request. -/
def check_maintenance_requests (st : MonitorState) : MonitorState :=
  if st.status_change_pending then
    { servers := st.servers.map apply_status_request, status_change_pending := false }
  else st

/-- What the environment and the monitor module produce for one server
during one tick: whether `ping_or_connect` returned an OK outcome, the
`mysql_errno` after a failure, and the role bits the module assigns. -/
structure TickProbe where
  conn_ok : Bool
  errno : Nat
  roles : Nat
  deriving DecidableEq, Repr

/-- The per-server probe body of `MonitorWorkerSimple::tick`
(`monitor.cc` 2185-2250) with the disk-space check not due this tick:
servers in maintenance are skipped; otherwise stash
`mon_prev_status = pending_status = server->status`, then on a
successful probe clear `AUTH_ERROR`, set `RUNNING` and run the module
hook; on failure clear everything except `WAS_MASTER` and set or clear
`AUTH_ERROR` according to the error code. -/
def tick_probe_one (p : TickProbe) (s : MonSrv) : MonSrv :=
  if is_in_maint s.status then s
  else if p.conn_ok then
    { s with mon_prev_status := s.status,
             pending_status := update_server_status_hook
               (set_pending (clear_pending s.status SERVER_AUTH_ERROR) SERVER_RUNNING)
               p.roles }
  else
    { s with mon_prev_status := s.status,
             pending_status :=
               if p.errno = ER_ACCESS_DENIED_ERROR then
                 set_pending (clear_pending s.status (STATUS_SENTINEL ^^^ SERVER_WAS_MASTER))
                   SERVER_AUTH_ERROR
               else
                 clear_pending (clear_pending s.status (STATUS_SENTINEL ^^^ SERVER_WAS_MASTER))
                   SERVER_AUTH_ERROR }

/-- The probe loop over the server list with its per-server inputs. -/
def tick_probe_all : List TickProbe → List MonSrv → List MonSrv
  | p :: ps, s :: ss => tick_probe_one p s :: tick_probe_all ps ss
  | _, ss => ss

/-- `MonitorWorker::flush_server_status` (`monitor.cc` 2148-2157):
commit the pending status of every non-maintenance server to the live
status. -/
def flush_one (s : MonSrv) : MonSrv :=
  if is_in_maint s.status then s else { s with status := s.pending_status }

/-- `MonitorWorkerSimple::tick` (`monitor.cc` 2178-2259) with the
disk-space check not due: drain admin requests, probe every
non-maintenance server, flush pending statuses, collect the state
changes, then encode the journal record handed to
`store_server_journal`.  `masterIdx` is the module's `m_master`
designation into the server list.  Returns the new state, the
classified events and the encoded journal record. -/
def tick (probes : List TickProbe) (masterIdx : Option Nat) (st : MonitorState) :
    MonitorState × List (MonSrv × MonitorEvent) × List Nat :=
  ({ servers := (tick_probe_all probes (check_maintenance_requests st).servers).map flush_one,
     status_change_pending := (check_maintenance_requests st).status_change_pending },
   detect_handle_state_changes
     ((tick_probe_all probes (check_maintenance_requests st).servers).map flush_one),
   store_data
     (((tick_probe_all probes (check_maintenance_requests st).servers).map flush_one).map
       (fun s => (s.name, s.status)))
     (master_name
       (((tick_probe_all probes (check_maintenance_requests st).servers).map flush_one).map
         (fun s => (s.name, s.status)))
       masterIdx))

/-- The request value posted by `set_server_status` (`monitor.cc`
1793-1802) for an allowed bit. -/
def post_request (bit : Nat) (s : MonSrv) : MonSrv :=
  { s with status_request :=
      if bit &&& SERVER_MAINT ≠ 0 then StatusRequest.MAINT_ON
      else StatusRequest.BEING_DRAINED_ON }

/-- `Monitor::set_server_status` (`monitor.cc` 1762-1823) in the
`MONITOR_STATE_RUNNING` case for the monitored server at index `i`:
bits other than `MAINT`/`DRAINING` are refused; otherwise the request
is posted into the server's `status_request` cell and
`m_status_change_pending` is raised.  Returns the state and the
`written` flag. -/
def set_server_status_running (st : MonitorState) (i : Nat) (bit : Nat) :
    MonitorState × Bool :=
  if bit &&& (STATUS_SENTINEL ^^^ (SERVER_MAINT ||| SERVER_DRAINING)) ≠ 0 then (st, false)
  else
    ({ servers :=
        match st.servers[i]? with
        | some s => st.servers.set i (post_request bit s)
        | none => st.servers,
       status_change_pending := true }, true)

/-- **C3 counterexample**: in the cold-start scenario (two servers A and
B with empty status, no journal, first tick's probes succeed, the
module marks A `MASTER` and B `SLAVE` and designates A as master) the
events classified by the tick are `MASTER_UP_EVENT` and
`SLAVE_UP_EVENT`, not the claimed `NEW_MASTER_EVENT` and
`NEW_SLAVE_EVENT`: the stashed previous status lacks `RUNNING`, so the
classifier takes the `*_UP` family. -/
theorem C3_cold_start_counterexample :
    ((tick [⟨true, 0, SERVER_MASTER⟩, ⟨true, 0, SERVER_SLAVE⟩] (some 0)
        ⟨[⟨[65], 0, STATUS_SENTINEL, 0, StatusRequest.NO_CHANGE⟩,
          ⟨[66], 0, STATUS_SENTINEL, 0, StatusRequest.NO_CHANGE⟩], false⟩).2.1).map
        Prod.snd =
      [MonitorEvent.MASTER_UP_EVENT, MonitorEvent.SLAVE_UP_EVENT] ∧
    MonitorEvent.MASTER_UP_EVENT ≠ MonitorEvent.NEW_MASTER_EVENT ∧
    MonitorEvent.SLAVE_UP_EVENT ≠ MonitorEvent.NEW_SLAVE_EVENT := by
  decide

set_option maxRecDepth 100000 in
/-- **C3 (amended)**: cold start with two servers A and B, no journal,
both initial statuses lacking `RUNNING` and all role bits; on the first
tick both probes succeed and the module marks A `MASTER`, B `SLAVE`
and designates A master.  The events classified for that tick are
`MASTER_UP_EVENT` for A and `SLAVE_UP_EVENT` for B, and the journal
record written at the end of the tick contains both servers with their
new statuses and records A as master: decoding it into a cold server
list restores exactly `RUNNING|MASTER` for A, `RUNNING|SLAVE` for B and
master index 0. -/
theorem C3_cold_start :
    (tick [⟨true, 0, SERVER_MASTER⟩, ⟨true, 0, SERVER_SLAVE⟩] (some 0)
        ⟨[⟨[65], 0, STATUS_SENTINEL, 0, StatusRequest.NO_CHANGE⟩,
          ⟨[66], 0, STATUS_SENTINEL, 0, StatusRequest.NO_CHANGE⟩], false⟩).2.1 =
      [(⟨[65], SERVER_RUNNING ||| SERVER_MASTER, 0, SERVER_RUNNING ||| SERVER_MASTER,
          StatusRequest.NO_CHANGE⟩, MonitorEvent.MASTER_UP_EVENT),
       (⟨[66], SERVER_RUNNING ||| SERVER_SLAVE, 0, SERVER_RUNNING ||| SERVER_SLAVE,
          StatusRequest.NO_CHANGE⟩, MonitorEvent.SLAVE_UP_EVENT)] ∧
    (tick [⟨true, 0, SERVER_MASTER⟩, ⟨true, 0, SERVER_SLAVE⟩] (some 0)
        ⟨[⟨[65], 0, STATUS_SENTINEL, 0, StatusRequest.NO_CHANGE⟩,
          ⟨[66], 0, STATUS_SENTINEL, 0, StatusRequest.NO_CHANGE⟩], false⟩).2.2 =
      store_data [([65], SERVER_RUNNING ||| SERVER_MASTER),
        ([66], SERVER_RUNNING ||| SERVER_SLAVE)] (some [65]) ∧
    load_server_journal
        (tick [⟨true, 0, SERVER_MASTER⟩, ⟨true, 0, SERVER_SLAVE⟩] (some 0)
          ⟨[⟨[65], 0, STATUS_SENTINEL, 0, StatusRequest.NO_CHANGE⟩,
            ⟨[66], 0, STATUS_SENTINEL, 0, StatusRequest.NO_CHANGE⟩], false⟩).2.2
        [⟨[65], 0, STATUS_SENTINEL, 0, StatusRequest.NO_CHANGE⟩,
         ⟨[66], 0, STATUS_SENTINEL, 0, StatusRequest.NO_CHANGE⟩] =
      (true,
       [⟨[65], SERVER_RUNNING ||| SERVER_MASTER, SERVER_RUNNING ||| SERVER_MASTER,
          SERVER_RUNNING ||| SERVER_MASTER, StatusRequest.NO_CHANGE⟩,
        ⟨[66], SERVER_RUNNING ||| SERVER_SLAVE, SERVER_RUNNING ||| SERVER_SLAVE,
          SERVER_RUNNING ||| SERVER_SLAVE, StatusRequest.NO_CHANGE⟩],
       some 0) := by
  refine ⟨by decide, by decide, ?_⟩
  rw [show (tick [⟨true, 0, SERVER_MASTER⟩, ⟨true, 0, SERVER_SLAVE⟩] (some 0)
        ⟨[⟨[65], 0, STATUS_SENTINEL, 0, StatusRequest.NO_CHANGE⟩,
          ⟨[66], 0, STATUS_SENTINEL, 0, StatusRequest.NO_CHANGE⟩], false⟩).2.2 =
      store_data [([65], SERVER_RUNNING ||| SERVER_MASTER),
        ([66], SERVER_RUNNING ||| SERVER_SLAVE)] (some [65]) from by decide]
  rw [show (some [65] : Option (List Nat)) =
      master_name [([65], SERVER_RUNNING ||| SERVER_MASTER),
        ([66], SERVER_RUNNING ||| SERVER_SLAVE)] (some 0) from rfl]
  rw [show ([⟨[65], 0, STATUS_SENTINEL, 0, StatusRequest.NO_CHANGE⟩,
      ⟨[66], 0, STATUS_SENTINEL, 0, StatusRequest.NO_CHANGE⟩] : List MonSrv) =
      [([65], SERVER_RUNNING ||| SERVER_MASTER),
        ([66], SERVER_RUNNING ||| SERVER_SLAVE)].map cold_server from rfl]
  rw [show ((true,
       [(⟨[65], SERVER_RUNNING ||| SERVER_MASTER, SERVER_RUNNING ||| SERVER_MASTER,
          SERVER_RUNNING ||| SERVER_MASTER, StatusRequest.NO_CHANGE⟩ : MonSrv),
        ⟨[66], SERVER_RUNNING ||| SERVER_SLAVE, SERVER_RUNNING ||| SERVER_SLAVE,
          SERVER_RUNNING ||| SERVER_SLAVE, StatusRequest.NO_CHANGE⟩],
       (some 0 : Option Nat)) : Bool × List MonSrv × Option Nat) =
      (true, [([65], SERVER_RUNNING ||| SERVER_MASTER),
        ([66], SERVER_RUNNING ||| SERVER_SLAVE)].map loaded_server, some 0) from rfl]
  exact load_store_round
    [([65], SERVER_RUNNING ||| SERVER_MASTER), ([66], SERVER_RUNNING ||| SERVER_SLAVE)]
    (some 0) (by decide) (by decide) (by decide) (by decide) (by decide)
    (by
      intro m hmm
      have h0 := Option.some.inj hmm
      simp only [List.length_cons, List.length_nil]
      omega)

/-! ## Admin-bit exclusivity -/

theorem or_ne_zero_left (a b : Nat) (h : a ≠ 0) : a ||| b ≠ 0 := by
  rcases Nat.ne_zero_implies_bit_true h with ⟨i, hi⟩
  intro hz
  have hb : (a ||| b).testBit i = true := by simp [Nat.testBit_or, hi]
  rw [hz] at hb
  simp at hb

theorem or_ne_zero_right (a b : Nat) (h : b ≠ 0) : a ||| b ≠ 0 := by
  rw [Nat.or_comm]
  exact or_ne_zero_left b a h

theorem maint_or (x y : Nat) (h : x &&& SERVER_MAINT ≠ 0) :
    (x ||| y) &&& SERVER_MAINT ≠ 0 := by
  rw [Nat.and_distrib_right]
  exact or_ne_zero_left _ _ h

theorem maint_set (x : Nat) : SERVER_set_status x SERVER_MAINT &&& SERVER_MAINT ≠ 0 := by
  unfold SERVER_set_status
  rw [Nat.and_distrib_right]
  exact or_ne_zero_right _ _ (by decide)

theorem maint_clear_drain (x : Nat) (h : x &&& SERVER_MAINT ≠ 0) :
    SERVER_clear_status x SERVER_DRAINING &&& SERVER_MAINT ≠ 0 := by
  unfold SERVER_clear_status
  rw [Nat.and_assoc]
  rw [show (STATUS_SENTINEL ^^^ (SERVER_DRAINING &&& STATUS_SENTINEL)) &&& SERVER_MAINT =
    SERVER_MAINT from by decide]
  exact h

theorem apply_request_maint_on (s : MonSrv)
    (h : s.status_request = StatusRequest.MAINT_ON) :
    (apply_status_request s).status &&& SERVER_MAINT ≠ 0 := by
  unfold apply_status_request
  rw [h]
  exact maint_set s.status

theorem apply_request_keeps_maint (s : MonSrv) (h : s.status &&& SERVER_MAINT ≠ 0)
    (hreq : s.status_request ≠ StatusRequest.MAINT_OFF) :
    (apply_status_request s).status &&& SERVER_MAINT ≠ 0 := by
  unfold apply_status_request
  cases hr : s.status_request
  · exact h
  · exact maint_set s.status
  · exact absurd hr hreq
  · exact maint_or _ _ h
  · exact maint_clear_drain _ h

theorem tick_probe_one_maint (p : TickProbe) (s : MonSrv)
    (h : s.status &&& SERVER_MAINT ≠ 0) : tick_probe_one p s = s := by
  unfold tick_probe_one
  rw [if_pos (by simp [is_in_maint, h])]

theorem flush_one_maint (s : MonSrv) (h : s.status &&& SERVER_MAINT ≠ 0) :
    flush_one s = s := by
  unfold flush_one
  rw [if_pos (by simp [is_in_maint, h])]

theorem length_tick_probe_all (ps : List TickProbe) (ss : List MonSrv) :
    (tick_probe_all ps ss).length = ss.length := by
  induction ss generalizing ps with
  | nil => cases ps <;> rfl
  | cons x xs ih =>
    cases ps with
    | nil => rfl
    | cons p ps => simp [tick_probe_all, ih]

theorem tick_probe_all_maint (ps : List TickProbe) (ss : List MonSrv) (i : Nat) (s : MonSrv)
    (hs : ss[i]? = some s) (hm : s.status &&& SERVER_MAINT ≠ 0) :
    (tick_probe_all ps ss)[i]? = some s := by
  induction ss generalizing ps i with
  | nil => simp at hs
  | cons x xs ih =>
    cases ps with
    | nil => simpa [tick_probe_all] using hs
    | cons p ps =>
      cases i with
      | zero =>
        have hx : x = s := by simpa using hs
        subst hx
        show (tick_probe_one p x :: tick_probe_all ps xs)[0]? = some x
        rw [tick_probe_one_maint p x hm]
        simp
      | succ i =>
        show (tick_probe_one p x :: tick_probe_all ps xs)[i + 1]? = some s
        simpa using ih ps i (by simpa using hs) 

/-- The fate of a maintenance server through probe and flush: it is
skipped by both. -/
theorem probe_flush_maint (ps : List TickProbe) (ss : List MonSrv) (i : Nat) (s : MonSrv)
    (hs : ss[i]? = some s) (hm : s.status &&& SERVER_MAINT ≠ 0) :
    ((tick_probe_all ps ss).map flush_one)[i]? = some s := by
  rw [List.getElem?_map, tick_probe_all_maint ps ss i s hs hm]
  simp [flush_one_maint s hm]

/-- **C8**: Admin bit exclusivity.  A `set_server_status(srv, MAINT)`
request while the monitor is `RUNNING` is accepted; the pending request
is applied at the start of the next tick, so after that one completed
tick the live status of the server has `MAINT` set; and no step of the
tick (request drain, probe, flush, state-change pass, journal write)
ever clears `MAINT` from a live status without a pending `MAINT_OFF`
request — servers in maintenance are skipped by the probe and excluded
from the status flush. -/
theorem C8_admin_bit_exclusivity :
    (∀ (st : MonitorState) (i : Nat),
      (set_server_status_running st i SERVER_MAINT).2 = true) ∧
    (∀ (st : MonitorState) (i : Nat) (probes : List TickProbe) (masterIdx : Option Nat)
      (s2 : MonSrv),
      ((tick probes masterIdx (set_server_status_running st i SERVER_MAINT).1).1.servers)[i]? =
        some s2 →
      s2.status &&& SERVER_MAINT ≠ 0) ∧
    (∀ (st : MonitorState) (probes : List TickProbe) (masterIdx : Option Nat) (i : Nat)
      (s s2 : MonSrv),
      st.servers[i]? = some s → s.status &&& SERVER_MAINT ≠ 0 →
      s.status_request ≠ StatusRequest.MAINT_OFF →
      ((tick probes masterIdx st).1.servers)[i]? = some s2 →
      s2.status &&& SERVER_MAINT ≠ 0) := by
  have hbit : SERVER_MAINT &&& (STATUS_SENTINEL ^^^ (SERVER_MAINT ||| SERVER_DRAINING)) = 0 := by
    decide
  refine ⟨?_, ?_, ?_⟩
  · intro st i
    unfold set_server_status_running
    rw [if_neg (by simp [hbit])]
  · intro st i probes masterIdx s2 h
    unfold set_server_status_running at h
    rw [if_neg (by simp [hbit])] at h
    cases hsv : st.servers[i]? with
    | none =>
      exfalso
      have hlen : st.servers.length ≤ i := by
        rcases List.getElem?_eq_none_iff.1 hsv with h2
        exact h2
      rw [hsv] at h
      simp only [tick] at h
      rw [List.getElem?_eq_none] at h
      · simp at h
      · simp only [List.length_map, length_tick_probe_all, check_maintenance_requests]
        split <;> simp [hlen]
    | some s0 =>
      have hilt : i < st.servers.length := by
        rcases List.getElem?_eq_some_iff.1 hsv with ⟨hl, _⟩
        exact hl
      rw [hsv] at h
      simp only [tick, check_maintenance_requests] at h
      rw [if_pos trivial] at h
      have hmap : (List.map apply_status_request
          (st.servers.set i (post_request SERVER_MAINT s0)))[i]? =
          some (apply_status_request (post_request SERVER_MAINT s0)) := by
        rw [List.getElem?_map, List.getElem?_set_self (by simpa using hilt)]
        rfl
      have hmaint : (apply_status_request (post_request SERVER_MAINT s0)).status &&&
          SERVER_MAINT ≠ 0 := by
        apply apply_request_maint_on
        simp [post_request]
        decide
      rw [probe_flush_maint probes _ i _ hmap hmaint] at h
      have hs2 : s2 = apply_status_request (post_request SERVER_MAINT s0) :=
        (Option.some.inj h).symm
      rw [hs2]
      exact hmaint
  · intro st probes masterIdx i s s2 hs hm hreq h2
    simp only [tick, check_maintenance_requests] at h2
    by_cases hflag : st.status_change_pending = true
    · rw [if_pos hflag] at h2
      have hmap : (st.servers.map apply_status_request)[i]? =
          some (apply_status_request s) := by
        rw [List.getElem?_map, hs]
        rfl
      have hmaint := apply_request_keeps_maint s hm hreq
      rw [probe_flush_maint probes _ i _ hmap hmaint] at h2
      rw [(Option.some.inj h2).symm]
      exact hmaint
    · rw [if_neg hflag] at h2
      rw [probe_flush_maint probes _ i _ hs hm] at h2
      rw [(Option.some.inj h2).symm]
      exact hm

set_option maxRecDepth 100000 in
/-- Witness for C8 on a one-server monitor: the request is accepted,
one tick later the live status carries `MAINT`, and a tick over a
server already in maintenance (no `MAINT_OFF` posted) keeps `MAINT`. -/
theorem C8_admin_bit_exclusivity_witness :
    (set_server_status_running ⟨[⟨[65], 0, 0, 0, StatusRequest.NO_CHANGE⟩], false⟩ 0
      SERVER_MAINT).2 = true ∧
    (⟨[65], SERVER_MAINT, 0, 0, StatusRequest.NO_CHANGE⟩ : MonSrv).status &&&
      SERVER_MAINT ≠ 0 :=
  ⟨C8_admin_bit_exclusivity.1 ⟨[⟨[65], 0, 0, 0, StatusRequest.NO_CHANGE⟩], false⟩ 0,
   C8_admin_bit_exclusivity.2.2 ⟨[⟨[65], SERVER_MAINT, 0, 0, StatusRequest.NO_CHANGE⟩], false⟩
     [⟨true, 0, 0⟩] none 0 ⟨[65], SERVER_MAINT, 0, 0, StatusRequest.NO_CHANGE⟩
     ⟨[65], SERVER_MAINT, 0, 0, StatusRequest.NO_CHANGE⟩
     (by decide) (by decide) (by decide) (by decide)⟩

/-! ## Decode robustness -/

/-- **C7**: code bug.  An unknown entry tag and a missing NUL
terminator do abort the load with failure, as claimed; but a `SVT_SERVER`
entry whose eight status bytes overrun the payload bounds is *not*
detected: in release builds the eight-byte read runs past `crc_ptr`
into the CRC field, the cursor ends up past the bound, the loop simply
exits and `process_data_file` returns success (only the debug-build
assertion `mxb_assert(ptr == crc_ptr)` would catch it), and the
truncated entry has already been applied to the server. -/
theorem C7_decode_overrun_not_detected :
    process_data_file [7, 65, 0] [0, 0, 0, 0]
        [⟨[65], 0, STATUS_SENTINEL, 0, StatusRequest.NO_CHANGE⟩] none =
      (false, [⟨[65], 0, STATUS_SENTINEL, 0, StatusRequest.NO_CHANGE⟩], none) ∧
    process_data_file [1, 65, 66] [0, 0, 0, 0]
        [⟨[65], 0, STATUS_SENTINEL, 0, StatusRequest.NO_CHANGE⟩] none =
      (false, [⟨[65], 0, STATUS_SENTINEL, 0, StatusRequest.NO_CHANGE⟩], none) ∧
    process_data_file [1, 65, 0, 9] [0, 0, 0, 0]
        [⟨[65], 0, STATUS_SENTINEL, 0, StatusRequest.NO_CHANGE⟩] none =
      (true, [⟨[65], 9, 9, 9, StatusRequest.NO_CHANGE⟩], none) := by
  refine ⟨?_, ?_, ?_⟩
  · rw [process_data_file]
    norm_num [has_null_terminator]
  · rw [process_data_file]
    norm_num [has_null_terminator]
  · rw [process_data_file]
    norm_num [has_null_terminator]
    rw [process_data_file]
    norm_num [get_byteN, apply_server_entry, SERVER_set_status]

end MaxScaleVerify
